import Mathlib

/-!
# Blogger backend: follow / like consistency layer

A shallow embedding of the route handlers of `Blogger_Backend/routes/follows.js`,
`routes/likes.js`, `routes/comments.js` and of the document methods of
`models/User.js`, `models/Post.js`, `models/Comment.js`.

The database is an explicit `Store` value passed through every handler.  A
Mongoose document obtained by `findById` is a *copy* of the stored record: later
`findByIdAndUpdate` calls change the store, not the copy, and `save()` writes the
paths the handler assigned on the copy back to the store.
-/

namespace Blogger

/-! ## Object ids and their string form -/

/-- An object id is twelve bytes, kept here as its 24 hexadecimal digits. -/
structure ObjectId where
  digits : List (Fin 16)
  size : digits.length = 24
deriving DecidableEq

/-- The lower-case hexadecimal character of one digit, as `ObjectId.toString()` prints it. -/
def hexChar (d : Fin 16) : Char :=
  if d.val < 10 then Char.ofNat (48 + d.val) else Char.ofNat (87 + d.val)

/-- The value of one hexadecimal character; both letter cases are accepted, as by
the `^[0-9a-fA-F]{24}$` test the driver applies when it casts a string to an id. -/
def hexValue (c : Char) : Option (Fin 16) :=
  let n := c.toNat
  if 48 ≤ n ∧ n ≤ 57 then some (Fin.ofNat (n - 48))
  else if 97 ≤ n ∧ n ≤ 102 then some (Fin.ofNat (n - 87))
  else if 65 ≤ n ∧ n ≤ 70 then some (Fin.ofNat (n - 55))
  else none

/-- Digit-wise reading of a character list; fails on the first non-hex character. -/
def parseHex : List Char → Option (List (Fin 16))
  | [] => some []
  | c :: cs =>
    match hexValue c, parseHex cs with
    | some d, some ds => some (d :: ds)
    | _, _ => none

/-- The canonical string of an id: `id.toString()`, 24 lower-case hex characters. -/
def ObjectId.toString (o : ObjectId) : String :=
  String.mk (o.digits.map hexChar)

/-- Casting of a request string to an id (`findById(str)`, `$pull: { f: str }`):
succeeds exactly on 24 hexadecimal characters of either case; otherwise the
query throws a cast error. -/
def castObjectId (s : String) : Option ObjectId :=
  match parseHex s.data with
  | some ds => if h : ds.length = 24 then some ⟨ds, h⟩ else none
  | none => none

/-! ## Records -/

/-- User record (`models/User.js`): the relation arrays and their stored counters. -/
structure User where
  followers : List ObjectId
  following : List ObjectId
  followersCount : Int
  followingCount : Int
  postsCount : Int
  likedPosts : List ObjectId
deriving DecidableEq

/-- One entry of a `likes` array: the liking user and the time of the like. -/
structure Like where
  user : ObjectId
  likedAt : Nat
deriving DecidableEq

/-- The `status` enum of a post. -/
inductive PostStatus where
  | draft
  | published
  | archived
deriving DecidableEq

/-- Post record (`models/Post.js`), restricted to the engagement fields. -/
structure Post where
  author : ObjectId
  status : PostStatus
  publishedAt : Option Nat
  likes : List Like
  likesCount : Int
  commentsCount : Int
deriving DecidableEq

/-- Comment record (`models/Comment.js`). -/
structure Comment where
  content : String
  author : ObjectId
  post : ObjectId
  parentComment : Option ObjectId
  replies : List ObjectId
  likes : List Like
  likesCount : Int
  isEdited : Bool
  editedAt : Option Nat
  isDeleted : Bool
deriving DecidableEq

/-- The three collections, each keyed by `_id`. -/
structure Store where
  users : ObjectId → Option User
  posts : ObjectId → Option Post
  comments : ObjectId → Option Comment

/-- The JSON answer of a handler: HTTP status, `success`, `message`, `data`. -/
structure Response (α : Type) where
  status : Nat
  success : Bool
  message : String
  data : Option α
deriving DecidableEq

/-- The answer of every `catch` block: status 500, `Server error`. -/
def serverError {α : Type} : Response α :=
  { status := 500, success := false, message := "Server error", data := none }

/-! ## Update operators of the database -/

/-- The `$pull` operator: removes every element equal to `v`. -/
def pull (xs : List ObjectId) (v : ObjectId) : List ObjectId :=
  xs.filter (fun x => x != v)

/-- The `$addToSet` operator: appends `v` unless it is already present. -/
def addToSet (xs : List ObjectId) (v : ObjectId) : List ObjectId :=
  if v ∈ xs then xs else xs ++ [v]

/-- The array method `includes(str)` on an array of ids: an element matches when
its string form equals the given string (`str == this[i]`). -/
def includes (xs : List ObjectId) (s : String) : Bool :=
  xs.any (fun x => x.toString == s)

/-- `User.findByIdAndUpdate(id, update)`: applies the update to the stored
record with that id, and does nothing when there is none. -/
def User.findByIdAndUpdate (db : Store) (id : ObjectId) (f : User → User) : Store :=
  { db with users := fun i => if i = id then (db.users i).map f else db.users i }

/-- `Post.findByIdAndUpdate(id, update)`. -/
def Post.findByIdAndUpdate (db : Store) (id : ObjectId) (f : Post → Post) : Store :=
  { db with posts := fun i => if i = id then (db.posts i).map f else db.posts i }

/-- `Comment.findByIdAndUpdate(id, update)`. -/
def Comment.findByIdAndUpdate (db : Store) (id : ObjectId) (f : Comment → Comment) : Store :=
  { db with comments := fun i => if i = id then (db.comments i).map f else db.comments i }

/-! ## `models/User.js` -/

/-- `userSchema.methods.updateFollowCounts`, run on the document `doc` that was
loaded under `id`: both counters are set to the lengths of the arrays *of the
document*, and `save()` writes these two paths to the stored record (the arrays
were not assigned on the document, so they are not written).  Returns the
document after the call and the store after the save. -/
def User.updateFollowCounts (db : Store) (id : ObjectId) (doc : User) : User × Store :=
  let doc1 := { doc with followersCount := (doc.followers.length : Int) }
  let doc2 := { doc1 with followingCount := (doc1.following.length : Int) }
  (doc2, User.findByIdAndUpdate db id (fun u =>
    { u with followersCount := doc2.followersCount, followingCount := doc2.followingCount }))

/-! ## `routes/follows.js` -/

/-- The `data` object of the follow answer. -/
structure FollowData where
  isFollowing : Bool
  followersCount : Int
  followingCount : Int
deriving DecidableEq

/-- The handler `router.post('/:userId')` of `routes/follows.js`.
`targetUserId` is the route parameter (a string), `currentUserId` is
`req.user._id`. -/
def toggleFollow (db : Store) (targetUserId : String) (currentUserId : ObjectId) :
    Response FollowData × Store :=
  if targetUserId = currentUserId.toString then
    ({ status := 400, success := false, message := "You cannot follow yourself", data := none }, db)
  else
    match castObjectId targetUserId with
    | none => (serverError, db)
    | some targetId =>
      match db.users targetId with
      | none => ({ status := 404, success := false, message := "User not found", data := none }, db)
      | some targetUser =>
        match db.users currentUserId with
        | none => (serverError, db)
        | some currentUser =>
          let isFollowing := includes currentUser.following targetUserId
          if isFollowing then
            let db1 := User.findByIdAndUpdate db currentUserId
              (fun u => { u with following := pull u.following targetId })
            let db2 := User.findByIdAndUpdate db1 targetId
              (fun u => { u with followers := pull u.followers currentUserId })
            let r3 := User.updateFollowCounts db2 currentUserId currentUser
            let r4 := User.updateFollowCounts r3.2 targetId targetUser
            ({ status := 200, success := true, message := "User unfollowed successfully",
               data := some { isFollowing := false,
                              followersCount := r4.1.followersCount - 1,
                              followingCount := r3.1.followingCount - 1 } }, r4.2)
          else
            let db1 := User.findByIdAndUpdate db currentUserId
              (fun u => { u with following := addToSet u.following targetId })
            let db2 := User.findByIdAndUpdate db1 targetId
              (fun u => { u with followers := addToSet u.followers currentUserId })
            let r3 := User.updateFollowCounts db2 currentUserId currentUser
            let r4 := User.updateFollowCounts r3.2 targetId targetUser
            ({ status := 200, success := true, message := "User followed successfully",
               data := some { isFollowing := true,
                              followersCount := r4.1.followersCount + 1,
                              followingCount := r3.1.followingCount + 1 } }, r4.2)

/-! ## `models/Post.js` and `models/Comment.js` -/

/-- `postSchema.methods.isLikedBy`: some entry of `likes` has this user, compared
through the string forms of the two ids. -/
def Post.isLikedBy (p : Post) (userId : ObjectId) : Bool :=
  p.likes.any (fun like => like.user.toString == userId.toString)

/-- `postSchema.methods.addLike` on a document: pushes `{ user, likedAt: now }`
and recomputes the counter, unless the user already likes the post. -/
def Post.addLike (p : Post) (userId : ObjectId) (now : Nat) : Post :=
  if !p.isLikedBy userId then
    let likes := p.likes ++ [{ user := userId, likedAt := now }]
    { p with likes := likes, likesCount := (likes.length : Int) }
  else p

/-- `postSchema.methods.removeLike` on a document: keeps the entries of other
users and recomputes the counter. -/
def Post.removeLike (p : Post) (userId : ObjectId) : Post :=
  let likes := p.likes.filter (fun like => like.user.toString != userId.toString)
  { p with likes := likes, likesCount := (likes.length : Int) }

/-- `post.save()` for a document loaded under `id`: the stored record becomes the document. -/
def Post.save (db : Store) (id : ObjectId) (doc : Post) : Store :=
  { db with posts := fun i => if i = id then some doc else db.posts i }

/-- `commentSchema.methods.isLikedBy`. -/
def Comment.isLikedBy (c : Comment) (userId : ObjectId) : Bool :=
  c.likes.any (fun like => like.user.toString == userId.toString)

/-- `commentSchema.methods.addLike` on a document. -/
def Comment.addLike (c : Comment) (userId : ObjectId) (now : Nat) : Comment :=
  if !c.isLikedBy userId then
    let likes := c.likes ++ [{ user := userId, likedAt := now }]
    { c with likes := likes, likesCount := (likes.length : Int) }
  else c

/-- `commentSchema.methods.removeLike` on a document. -/
def Comment.removeLike (c : Comment) (userId : ObjectId) : Comment :=
  let likes := c.likes.filter (fun like => like.user.toString != userId.toString)
  { c with likes := likes, likesCount := (likes.length : Int) }

/-- `comment.save()` for a document loaded under `id`. -/
def Comment.save (db : Store) (id : ObjectId) (doc : Comment) : Store :=
  { db with comments := fun i => if i = id then some doc else db.comments i }

/-! ## `routes/likes.js` and the like handler of `routes/comments.js` -/

/-- The `data` object of a like answer. -/
structure LikeData where
  isLiked : Bool
  likesCount : Int
deriving DecidableEq

/-- The handler `router.post('/post/:postId')` of `routes/likes.js`; `postId` is the
route parameter, `userId` is `req.user._id`, `now` the clock at the push. -/
def togglePostLike (db : Store) (postId : String) (userId : ObjectId) (now : Nat) :
    Response LikeData × Store :=
  match castObjectId postId with
  | none => (serverError, db)
  | some pid =>
    match db.posts pid with
    | none => ({ status := 404, success := false, message := "Post not found", data := none }, db)
    | some post =>
      if post.status ≠ PostStatus.published then
        ({ status := 400, success := false, message := "Cannot like unpublished post",
           data := none }, db)
      else
        let isLiked := post.isLikedBy userId
        if isLiked then
          let post1 := post.removeLike userId
          let db1 := Post.save db pid post1
          let db2 := User.findByIdAndUpdate db1 userId
            (fun u => { u with likedPosts := pull u.likedPosts pid })
          ({ status := 200, success := true, message := "Post unliked",
             data := some { isLiked := !isLiked, likesCount := post1.likesCount } }, db2)
        else
          let post1 := post.addLike userId now
          let db1 := Post.save db pid post1
          let db2 := User.findByIdAndUpdate db1 userId
            (fun u => { u with likedPosts := addToSet u.likedPosts pid })
          ({ status := 200, success := true, message := "Post liked",
             data := some { isLiked := !isLiked, likesCount := post1.likesCount } }, db2)

/-- The handler `router.post('/comment/:commentId')` of `routes/likes.js`. -/
def toggleCommentLike (db : Store) (commentId : String) (userId : ObjectId) (now : Nat) :
    Response LikeData × Store :=
  match castObjectId commentId with
  | none => (serverError, db)
  | some cid =>
    match db.comments cid with
    | none =>
      ({ status := 404, success := false, message := "Comment not found", data := none }, db)
    | some comment =>
      if comment.isDeleted then
        ({ status := 400, success := false, message := "Cannot like deleted comment",
           data := none }, db)
      else
        let isLiked := comment.isLikedBy userId
        if isLiked then
          let comment1 := comment.removeLike userId
          ({ status := 200, success := true, message := "Comment unliked",
             data := some { isLiked := !isLiked, likesCount := comment1.likesCount } },
           Comment.save db cid comment1)
        else
          let comment1 := comment.addLike userId now
          ({ status := 200, success := true, message := "Comment liked",
             data := some { isLiked := !isLiked, likesCount := comment1.likesCount } },
           Comment.save db cid comment1)

/-- The handler `router.post('/:id/like')` of `routes/comments.js`. -/
def commentsLike (db : Store) (id : String) (userId : ObjectId) (now : Nat) :
    Response LikeData × Store :=
  match castObjectId id with
  | none => (serverError, db)
  | some cid =>
    match db.comments cid with
    | none =>
      ({ status := 404, success := false, message := "Comment not found", data := none }, db)
    | some comment =>
      if comment.isDeleted then
        ({ status := 400, success := false, message := "Cannot like deleted comment",
           data := none }, db)
      else
        let isLiked := comment.isLikedBy userId
        if isLiked then
          let comment1 := comment.removeLike userId
          ({ status := 200, success := true, message := "Comment unliked",
             data := some { isLiked := !isLiked, likesCount := comment1.likesCount } },
           Comment.save db cid comment1)
        else
          let comment1 := comment.addLike userId now
          ({ status := 200, success := true, message := "Comment liked",
             data := some { isLiked := !isLiked, likesCount := comment1.likesCount } },
           Comment.save db cid comment1)

/-! ## Sequences of like requests -/

/-- One like request: which handler, its route parameter, the user and the clock. -/
inductive LikeRequest where
  | post (postId : String) (userId : ObjectId) (now : Nat)
  | comment (commentId : String) (userId : ObjectId) (now : Nat)
  | commentsRoute (id : String) (userId : ObjectId) (now : Nat)

/-- Runs one like request through its handler. -/
def LikeRequest.run (db : Store) : LikeRequest → Response LikeData × Store
  | .post postId userId now => togglePostLike db postId userId now
  | .comment commentId userId now => toggleCommentLike db commentId userId now
  | .commentsRoute id userId now => commentsLike db id userId now

/-- Runs the requests in order; `none` as soon as one of them is not answered
with status 200. -/
def runLikes (db : Store) : List LikeRequest → Option Store
  | [] => some db
  | r :: rs =>
    if (r.run db).1.status = 200 then runLikes (r.run db).2 rs else none

/-- The post id a request addresses, if it is a post like with a well-formed id. -/
def LikeRequest.postTarget : LikeRequest → Option ObjectId
  | .post postId _ _ => castObjectId postId
  | _ => none

/-- The comment id a request addresses, if it is a comment like with a well-formed id. -/
def LikeRequest.commentTarget : LikeRequest → Option ObjectId
  | .post _ _ _ => none
  | .comment commentId _ _ => castObjectId commentId
  | .commentsRoute id _ _ => castObjectId id

/-- The users of a `likes` array, in order. -/
def likers (likes : List Like) : List ObjectId :=
  likes.map Like.user

/-- The requests of one user toggling the like of one post once per clock value. -/
def repeatedPostLike (postId : String) (userId : ObjectId) (nows : List Nat) : List LikeRequest :=
  nows.map (fun now => LikeRequest.post postId userId now)

/-! ## Sample data -/

/-- Sample id `00000000000000000000000a`. -/
def alice : ObjectId := ⟨List.replicate 23 0 ++ [10], by decide⟩

/-- Sample id `00000000000000000000000b`. -/
def bob : ObjectId := ⟨List.replicate 23 0 ++ [11], by decide⟩

/-- Sample id `0000000000000000000000c1`, used for a post. -/
def postOne : ObjectId := ⟨List.replicate 22 0 ++ [12, 1], by decide⟩

/-- Sample id `0000000000000000000000d1`, used for a comment. -/
def commentOne : ObjectId := ⟨List.replicate 22 0 ++ [13, 1], by decide⟩

/-- A user as registration leaves it: empty arrays, zero counters. -/
def freshUser : User :=
  { followers := [], following := [], followersCount := 0, followingCount := 0,
    postsCount := 0, likedPosts := [] }

/-- A store with the two fresh users `alice` and `bob` and nothing else. -/
def twoUsers : Store :=
  { users := fun i => if i = alice then some freshUser else if i = bob then some freshUser else none
    posts := fun _ => none
    comments := fun _ => none }

/-- A published post of `alice` whose stored counter (7) disagrees with its empty `likes`. -/
def driftedPost : Post :=
  { author := alice, status := PostStatus.published, publishedAt := some 1, likes := [],
    likesCount := 7, commentsCount := 1 }

/-- A live comment of `bob` on `postOne` whose stored counter (3) disagrees with its `likes`. -/
def driftedComment : Comment :=
  { content := "hi", author := bob, post := postOne, parentComment := none, replies := [],
    likes := [{ user := alice, likedAt := 2 }], likesCount := 3, isEdited := false,
    editedAt := none, isDeleted := false }

/-- The two users, the post `postOne` and the comment `commentOne`, with drifted counters. -/
def driftedStore : Store :=
  { users := twoUsers.users
    posts := fun i => if i = postOne then some driftedPost else none
    comments := fun i => if i = commentOne then some driftedComment else none }

/-- A published post of `bob`, liked by `alice`, with a consistent counter. -/
def likedPost : Post :=
  { author := bob, status := PostStatus.published, publishedAt := some 1,
    likes := [{ user := alice, likedAt := 3 }], likesCount := 1, commentsCount := 0 }

/-- The two users and the post `postOne`, liked by `alice`. -/
def likedStore : Store :=
  { users := fun i => if i = alice then some { freshUser with likedPosts := [postOne] }
      else if i = bob then some freshUser else none
    posts := fun i => if i = postOne then some likedPost else none
    comments := fun _ => none }

/-- A draft post of `alice` with one stored like of `bob`. -/
def draftPost : Post :=
  { author := alice, status := PostStatus.draft, publishedAt := none,
    likes := [{ user := bob, likedAt := 4 }], likesCount := 1, commentsCount := 0 }

/-- A soft-deleted comment of `bob` on `postOne`. -/
def deletedComment : Comment :=
  { content := "[This comment has been deleted]", author := bob, post := postOne,
    parentComment := none, replies := [], likes := [{ user := alice, likedAt := 2 }],
    likesCount := 1, isEdited := false, editedAt := none, isDeleted := true }

/-- The two users, the draft post `postOne` and the deleted comment `commentOne`. -/
def closedStore : Store :=
  { users := twoUsers.users
    posts := fun i => if i = postOne then some draftPost else none
    comments := fun i => if i = commentOne then some deletedComment else none }

/-- The store an interrupted follow leaves behind: `alice.following` already
holds `bob`, while `bob.followers` was never written and no counter was updated. -/
def halfFollowed : Store :=
  { users := fun i => if i = alice then some { freshUser with following := [bob] }
      else if i = bob then some freshUser else none
    posts := fun _ => none
    comments := fun _ => none }

/-! ## Strings of a request body -/

/-- The characters `String.prototype.trim` removes: white space and line terminators. -/
def isJsWhitespace (c : Char) : Bool :=
  let n := c.toNat
  n = 9 || n = 10 || n = 11 || n = 12 || n = 13 || n = 32 || n = 160 || n = 5760 ||
  (8192 ≤ n && n ≤ 8202) || n = 8232 || n = 8233 || n = 8239 || n = 8287 || n = 12288 ||
  n = 65279

/-- The method `str.trim()`: the string without its leading and trailing white space. -/
def jsTrim (s : String) : String :=
  String.mk ((s.data.dropWhile isJsWhitespace).reverse.dropWhile isJsWhitespace).reverse

/-- The value of `str.length`: the number of UTF-16 code units. -/
def utf16Length (s : String) : Nat :=
  (s.data.map (fun c => if c.toNat < 65536 then 1 else 2)).sum

/-- Whether a character is a hexadecimal digit of either case. -/
def isHexDigit (c : Char) : Bool :=
  (hexValue c).isSome

/-- A non-empty run of hexadecimal digits: the part `[0-9A-F]+` of the
validator's pattern, matched without regard to case. -/
def isHexRun (cs : List Char) : Bool :=
  !cs.isEmpty && cs.all isHexDigit

/-- The validator `isHexadecimal`, the pattern `/^(0x|0h)?[0-9A-F]+$/i`: a run
of hexadecimal digits, optionally after the prefix `0x` or `0h` in either case. -/
def isHexadecimal (s : String) : Bool :=
  isHexRun s.data ||
  (match s.data with
   | c0 :: c1 :: rest =>
     (c0 == '0') && (c1 == 'x' || c1 == 'X' || c1 == 'h' || c1 == 'H') && isHexRun rest
   | _ => false)

/-- The validator `isMongoId()`: `isHexadecimal(str) && str.length === 24`. It
accepts the 24 hexadecimal characters of an id, and also the prefix `0x` or `0h`
followed by 22 hexadecimal digits, which no cast to an id accepts. -/
def isMongoId (s : String) : Bool :=
  isHexadecimal s && decide (utf16Length s = 24)

/-- The length the validator `isLength` compares with its bounds: the number
of characters, not counting the variation selectors U+FE0E and U+FE0F. -/
def validatorLength (s : String) : Nat :=
  (s.data.filter (fun c => !(c.toNat == 65038 || c.toNat == 65039))).length

/-- The chain `body('content').notEmpty().isLength({ max: 1000 })` of the
comment routes; `isLength` compares `validatorLength` with its bound. -/
def contentAccepted (content : String) : Bool :=
  decide (content ≠ "") && decide (validatorLength content ≤ 1000)

/-- The request validation of `router.post('/')` in `routes/comments.js`:
`content` as above, `postId` a non-empty Mongo id, `parentCommentId` a Mongo id
when it is present. -/
def createCommentAccepted (content postId : String) (parentCommentId : Option String) : Bool :=
  contentAccepted content && (decide (postId ≠ "") && isMongoId postId) &&
  (match parentCommentId with
   | none => true
   | some p => isMongoId p)

/-! ## `models/Comment.js`: content, creation, soft delete -/

/-- The fixed string `softDelete` writes into `content`. -/
def tombstone : String := "[This comment has been deleted]"

/-- Assignment to the path `content`, declared with `trim: true`: the setter
stores the trimmed string. -/
def Comment.setContent (c : Comment) (content : String) : Comment :=
  { c with content := jsTrim content }

/-- The validators of the path `content` that `save()` runs: `required` (the
stored string is not empty) and `maxlength: 1000` (on `str.length`). -/
def Comment.contentValid (c : Comment) : Bool :=
  decide (c.content ≠ "") && decide (utf16Length c.content ≤ 1000)

/-- The document `new Comment({ content, author, post, parentComment })`, with
the schema defaults for the other paths. -/
def Comment.new (content : String) (author post : ObjectId) (parentComment : Option ObjectId) :
    Comment :=
  Comment.setContent
    { content := "", author := author, post := post, parentComment := parentComment,
      replies := [], likes := [], likesCount := 0, isEdited := false, editedAt := none,
      isDeleted := false } content

/-- `commentSchema.methods.softDelete` on a document. -/
def Comment.softDelete (c : Comment) : Comment :=
  Comment.setContent { c with isDeleted := true } tombstone

/-- `comment.save()` with validation, for a document whose `content` was
assigned: `none` when a validator of `content` rejects it (the promise rejects
and nothing is written), else the store with the record replaced. -/
def Comment.saveValidated (db : Store) (id : ObjectId) (doc : Comment) : Option Store :=
  if doc.contentValid then some (Comment.save db id doc) else none

/-- `comment.save()` of a new document under the id `id` it was given at
construction: `none` when validation rejects it or the id is already taken. -/
def Comment.insert (db : Store) (id : ObjectId) (doc : Comment) : Option Store :=
  match db.comments id with
  | some _ => none
  | none => Comment.saveValidated db id doc

/-! ## `routes/comments.js`: create, update, delete -/

/-- A comment document as an answer carries it: its `_id` and its paths. -/
structure CommentData where
  id : ObjectId
  comment : Comment
deriving DecidableEq

/-- The handler `router.post('/')` of `routes/comments.js`. `content`, `postId`,
`parentCommentId` are the fields of the request body, `userId` is
`req.user._id`, and `newId` is the `_id` that `new Comment(...)` generates. -/
def createComment (db : Store) (content postId : String) (parentCommentId : Option String)
    (userId newId : ObjectId) : Response CommentData × Store :=
  if ¬ createCommentAccepted content postId parentCommentId then
    ({ status := 400, success := false, message := "Validation failed", data := none }, db)
  else
    match castObjectId postId with
    | none => (serverError, db)
    | some pid =>
      match db.posts pid with
      | none =>
        ({ status := 404, success := false, message := "Post not found", data := none }, db)
      | some _ =>
        let create := fun (parent : Option ObjectId) =>
          let comment := Comment.new content userId pid parent
          match Comment.insert db newId comment with
          | none => (serverError, db)
          | some db1 =>
            let db2 := match parent with
              | some parentId =>
                Comment.findByIdAndUpdate db1 parentId
                  (fun c => { c with replies := c.replies ++ [newId] })
              | none => db1
            let db3 := Post.findByIdAndUpdate db2 pid
              (fun p => { p with commentsCount := p.commentsCount + 1 })
            ({ status := 201, success := true, message := "Comment created successfully",
               data := some { id := newId, comment := comment } }, db3)
        match parentCommentId with
        | none => create none
        | some parentStr =>
          match castObjectId parentStr with
          | none => (serverError, db)
          | some parentId =>
            match db.comments parentId with
            | none =>
              ({ status := 404, success := false, message := "Parent comment not found",
                 data := none }, db)
            | some _ => create (some parentId)

/-- The handler `router.put('/:id')` of `routes/comments.js`; `id` is the route
parameter, `content` the body field, `now` the clock at `new Date()`. -/
def updateComment (db : Store) (id content : String) (userId : ObjectId) (now : Nat) :
    Response CommentData × Store :=
  if ¬ contentAccepted content then
    ({ status := 400, success := false, message := "Validation failed", data := none }, db)
  else
    match castObjectId id with
    | none => (serverError, db)
    | some cid =>
      match db.comments cid with
      | none =>
        ({ status := 404, success := false, message := "Comment not found", data := none }, db)
      | some comment =>
        if comment.author.toString ≠ userId.toString then
          ({ status := 403, success := false, message := "Not authorized to update this comment",
             data := none }, db)
        else if comment.isDeleted then
          ({ status := 400, success := false, message := "Cannot update deleted comment",
             data := none }, db)
        else
          let comment1 := Comment.setContent comment content
          let comment2 := { comment1 with isEdited := true }
          let comment3 := { comment2 with editedAt := some now }
          match Comment.saveValidated db cid comment3 with
          | none => (serverError, db)
          | some db1 =>
            ({ status := 200, success := true, message := "Comment updated successfully",
               data := some { id := cid, comment := comment3 } }, db1)

/-- The handler `router.delete('/:id')` of `routes/comments.js`. -/
def deleteComment (db : Store) (id : String) (userId : ObjectId) : Response Unit × Store :=
  match castObjectId id with
  | none => (serverError, db)
  | some cid =>
    match db.comments cid with
    | none =>
      ({ status := 404, success := false, message := "Comment not found", data := none }, db)
    | some comment =>
      if comment.author.toString ≠ userId.toString then
        ({ status := 403, success := false, message := "Not authorized to delete this comment",
           data := none }, db)
      else
        let comment1 := comment.softDelete
        match Comment.saveValidated db cid comment1 with
        | none => (serverError, db)
        | some db1 =>
          let db2 := Post.findByIdAndUpdate db1 comment1.post
            (fun p => { p with commentsCount := p.commentsCount - 1 })
          ({ status := 200, success := true, message := "Comment deleted successfully",
             data := none }, db2)

/-! ## Sample data for the comment handlers -/

/-- Sample id `0000000000000000000000c2`, used for a second post. -/
def postTwo : ObjectId := ⟨List.replicate 22 0 ++ [12, 2], by decide⟩

/-- Sample id `0000000000000000000000d2`, used for a newly created comment. -/
def commentTwo : ObjectId := ⟨List.replicate 22 0 ++ [13, 2], by decide⟩

/-- A published post of `alice` without likes and without comments. -/
def emptyPost : Post :=
  { author := alice, status := PostStatus.published, publishedAt := some 1, likes := [],
    likesCount := 0, commentsCount := 0 }

/-- A live top-level comment of `bob` on `postOne`. -/
def liveComment : Comment :=
  { content := "first", author := bob, post := postOne, parentComment := none, replies := [],
    likes := [], likesCount := 0, isEdited := false, editedAt := none, isDeleted := false }

/-- Two users, the post `postOne` with its single live comment `commentOne`
(so `commentsCount = 1`), and the post `postTwo` without comments. -/
def threadStore : Store :=
  { users := twoUsers.users
    posts := fun i => if i = postOne then some { emptyPost with commentsCount := 1 }
      else if i = postTwo then some emptyPost else none
    comments := fun i => if i = commentOne then some liveComment else none }

/-- Two users, the post `postOne` whose single comment `commentOne` is
soft-deleted (so `commentsCount = 0`). -/
def tombstoneStore : Store :=
  { users := twoUsers.users
    posts := fun i => if i = postOne then some emptyPost else none
    comments := fun i => if i = commentOne then
        some { liveComment with content := tombstone, isDeleted := true }
      else none }

/-- The parent comment a create request designates: its `parentCommentId`, cast to an id. -/
def parentTarget (parentCommentId : Option String) : Option ObjectId :=
  parentCommentId.bind castObjectId

/-- The body a `save()` accepts once the setter of `content` has trimmed it: not
empty after trimming, at most 1000 code units. -/
def contentStorable (content : String) : Bool :=
  decide (jsTrim content ≠ "") && decide (utf16Length (jsTrim content) ≤ 1000)

/-! ## Sequences of create requests -/

/-- One create request: the body fields, the user and the id of the new document. -/
structure CreateRequest where
  content : String
  postId : String
  parentCommentId : Option String
  userId : ObjectId
  newId : ObjectId

/-- Runs one create request through the handler. -/
def CreateRequest.run (db : Store) (r : CreateRequest) : Response CommentData × Store :=
  createComment db r.content r.postId r.parentCommentId r.userId r.newId

/-- Runs the create requests in order; `none` as soon as one of them is not
answered with status 201. -/
def runCreates (db : Store) : List CreateRequest → Option Store
  | [] => some db
  | r :: rs => if (r.run db).1.status = 201 then runCreates (r.run db).2 rs else none

/-- The ids of the comments the requests create as replies to `q`, in request order. -/
def repliesTo (q : ObjectId) (rs : List CreateRequest) : List ObjectId :=
  (rs.filter (fun r => decide (parentTarget r.parentCommentId = some q))).map CreateRequest.newId

/-- Sample id `0000000000000000000000d3`, used for a second new comment. -/
def commentThree : ObjectId := ⟨List.replicate 22 0 ++ [13, 3], by decide⟩

/-- Alice's reply to `commentOne` on `postOne`, created under `commentTwo`. -/
def firstReply : CreateRequest :=
  { content := "one", postId := postOne.toString, parentCommentId := some commentOne.toString,
    userId := alice, newId := commentTwo }

/-- Bob's reply to `commentOne` on `postOne`, created under `commentThree`. -/
def secondReply : CreateRequest :=
  { content := "two", postId := postOne.toString, parentCommentId := some commentOne.toString,
    userId := bob, newId := commentThree }

/-! ## Sequences of follow requests -/

/-- One follow request: the route parameter and the authenticated user. -/
structure FollowRequest where
  targetUserId : String
  currentUserId : ObjectId

/-- Runs the follow requests in order, whatever each one is answered with. -/
def runFollows (db : Store) : List FollowRequest → Store
  | [] => db
  | r :: rs => runFollows (toggleFollow db r.targetUserId r.currentUserId).2 rs

/-- No user record holds the same id twice in `following` or twice in `followers`. -/
def FollowsSetLike (db : Store) : Prop :=
  ∀ i u, db.users i = some u → u.following.Nodup ∧ u.followers.Nodup

/-! ## `routes/posts.js`: create, update, delete

The body fields `tags` and `featuredImage` are left out: they are stored in
paths the `Post` record here does not carry and no validator reads them. -/

/-- The value of the `status` enum a body string names. -/
def parseStatus (s : String) : Option PostStatus :=
  if s = "draft" then some PostStatus.draft
  else if s = "published" then some PostStatus.published
  else if s = "archived" then some PostStatus.archived
  else none

/-- The chain `optional().isIn(allowed)` on the body field `status`. -/
def statusAccepted (allowed : List String) (status : Option String) : Bool :=
  match status with
  | none => true
  | some s => decide (s ∈ allowed)

/-- The request validation of `router.post('/')` in `routes/posts.js`: `title`
not empty and at most 200 characters, `content` not empty and at most 50000
characters, `status` absent or one of `draft`, `published`. -/
def createPostAccepted (title content : String) (status : Option String) : Bool :=
  (decide (title ≠ "") && decide (validatorLength title ≤ 200)) &&
  (decide (content ≠ "") && decide (validatorLength content ≤ 50000)) &&
  statusAccepted ["draft", "published"] status

/-- The request validation of `router.put('/:id')` in `routes/posts.js`: every
field is optional; `title` at most 200 and `content` at most 50000 characters,
`status` one of `draft`, `published`, `archived`. -/
def updatePostAccepted (title content status : Option String) : Bool :=
  (match title with
   | none => true
   | some t => decide (validatorLength t ≤ 200)) &&
  (match content with
   | none => true
   | some c => decide (validatorLength c ≤ 50000)) &&
  statusAccepted ["draft", "published", "archived"] status

/-- The schema validators `save()` runs on the assigned paths `title` (trimmed
by its setter, required, at most 200 code units), `content` (required, at most
50000 code units) and `excerpt` (at most 500 code units); an absent field was
not assigned and keeps its stored, valid value. -/
def postFieldsStorable (title content excerpt : Option String) : Bool :=
  (match title with
   | none => true
   | some t => decide (jsTrim t ≠ "") && decide (utf16Length (jsTrim t) ≤ 200)) &&
  (match content with
   | none => true
   | some c => decide (c ≠ "") && decide (utf16Length c ≤ 50000)) &&
  (match excerpt with
   | none => true
   | some e => decide (utf16Length e ≤ 500))

/-- A post document as an answer carries it: its `_id` and its paths. -/
structure PostData where
  id : ObjectId
  post : Post
deriving DecidableEq

/-- The handler `router.post('/')` of `routes/posts.js`. `title`, `content`,
`excerpt`, `status` are body fields, `userId` is `req.user._id`, `newId` is the
`_id` that `new Post(...)` generates, `now` the clock at `new Date()`. -/
def createPost (db : Store) (title content : String) (excerpt status : Option String)
    (userId newId : ObjectId) (now : Nat) : Response PostData × Store :=
  if ¬ createPostAccepted title content status then
    ({ status := 400, success := false, message := "Validation failed", data := none }, db)
  else
    let statusText := status.getD "draft"
    let post : Post :=
      { author := userId, status := (parseStatus statusText).getD PostStatus.draft,
        publishedAt := if statusText = "published" then some now else none,
        likes := [], likesCount := 0, commentsCount := 0 }
    if ¬ postFieldsStorable (some title) (some content) excerpt then (serverError, db)
    else
      match db.posts newId with
      | some _ => (serverError, db)
      | none =>
        let db1 := Post.save db newId post
        let db2 := User.findByIdAndUpdate db1 userId
          (fun u => { u with postsCount := u.postsCount + 1 })
        ({ status := 201, success := true, message := "Post created successfully",
           data := some { id := newId, post := post } }, db2)

/-- The handler `router.put('/:id')` of `routes/posts.js`. -/
def updatePost (db : Store) (id : String) (title content excerpt status : Option String)
    (userId : ObjectId) (now : Nat) : Response PostData × Store :=
  if ¬ updatePostAccepted title content status then
    ({ status := 400, success := false, message := "Validation failed", data := none }, db)
  else
    match castObjectId id with
    | none => (serverError, db)
    | some pid =>
      match db.posts pid with
      | none =>
        ({ status := 404, success := false, message := "Post not found", data := none }, db)
      | some post =>
        if post.author.toString ≠ userId.toString then
          ({ status := 403, success := false, message := "Not authorized to update this post",
             data := none }, db)
        else
          let post1 := match status.bind parseStatus with
            | some st => { post with status := st }
            | none => post
          let post2 :=
            if status = some "published" ∧ post1.status ≠ PostStatus.published then
              { post1 with publishedAt := some now }
            else post1
          if ¬ postFieldsStorable title content excerpt then (serverError, db)
          else
            ({ status := 200, success := true, message := "Post updated successfully",
               data := some { id := pid, post := post2 } }, Post.save db pid post2)

/-- The handler `router.delete('/:id')` of `routes/posts.js`:
`Post.findByIdAndDelete` removes the record, then the counter of the
authenticated user goes down by one. -/
def deletePost (db : Store) (id : String) (userId : ObjectId) : Response Unit × Store :=
  match castObjectId id with
  | none => (serverError, db)
  | some pid =>
    match db.posts pid with
    | none =>
      ({ status := 404, success := false, message := "Post not found", data := none }, db)
    | some post =>
      if post.author.toString ≠ userId.toString then
        ({ status := 403, success := false, message := "Not authorized to delete this post",
           data := none }, db)
      else
        let db1 : Store := { db with posts := fun i => if i = pid then none else db.posts i }
        let db2 := User.findByIdAndUpdate db1 userId
          (fun u => { u with postsCount := u.postsCount - 1 })
        ({ status := 200, success := true, message := "Post deleted successfully",
           data := none }, db2)

/-! ## Sequences of post creations and deletions -/

/-- One request to the posts routes: a creation or a deletion. -/
inductive PostRequest where
  | create (title content : String) (excerpt status : Option String) (userId newId : ObjectId)
      (now : Nat)
  | delete (id : String) (userId : ObjectId)

/-- Runs one request and reports whether it succeeded (201 for a creation, 200
for a deletion) together with the store it leaves. -/
def PostRequest.run (db : Store) : PostRequest → Bool × Store
  | .create title content excerpt status userId newId now =>
    (decide ((createPost db title content excerpt status userId newId now).1.status = 201),
     (createPost db title content excerpt status userId newId now).2)
  | .delete id userId =>
    (decide ((deletePost db id userId).1.status = 200), (deletePost db id userId).2)

/-- Runs the requests in order; `none` as soon as one of them does not succeed. -/
def runPosts (db : Store) : List PostRequest → Option Store
  | [] => some db
  | r :: rs => if (r.run db).1 then runPosts (r.run db).2 rs else none

/-- The finite set `ids` is the set of ids under which the posts collection
holds a record. -/
def PostsIndexed (db : Store) (ids : Finset ObjectId) : Prop :=
  ∀ i, i ∈ ids ↔ (db.posts i).isSome

/-- Whether the post stored under `i` (if any) has author `u`. -/
def isAuthoredBy (db : Store) (u i : ObjectId) : Bool :=
  match db.posts i with
  | some p => decide (p.author = u)
  | none => false

/-- The number of stored posts whose author is `u`, counted over the ids of the collection. -/
def authoredCount (db : Store) (ids : Finset ObjectId) (u : ObjectId) : Nat :=
  (ids.filter (fun i => isAuthoredBy db u i = true)).card

/-- Every stored user's `postsCount` equals the number of stored posts of that user. -/
def PostsCountAgrees (db : Store) (ids : Finset ObjectId) : Prop :=
  ∀ u usr, db.users u = some usr → usr.postsCount = (authoredCount db ids u : Int)

/-- The posts requests used to exercise the counter: Alice creates `postOne`,
Bob creates `postTwo`, Alice deletes `postOne`. -/
def samplePostRequests : List PostRequest :=
  [PostRequest.create "Title" "Body" none (some "published") alice postOne 1,
   PostRequest.create "Other" "Text" none none bob postTwo 2,
   PostRequest.delete postOne.toString alice]

/-! ## `routes/comments.js`: the listing of a post's comments -/

/-- The `data` object of the listing answer: the page of comments and the
pagination figures. -/
structure CommentPage where
  comments : List CommentData
  page : Nat
  limit : Nat
  total : Nat
  pages : Nat
deriving DecidableEq

/-- The value of `parseInt(q) || fallback` for a query value that is absent (or
not a number) or a natural number: zero and absence give the fallback. -/
def queryOr (q : Option Nat) (fallback : Nat) : Nat :=
  match q with
  | some (n + 1) => n + 1
  | _ => fallback

/-- The handler `router.get('/post/:postId')` of `routes/comments.js`. The store
keeps neither an enumeration of a collection nor creation times, so the
handler receives `newestFirst`, the ids of the comments collection ordered by
`createdAt` descending. It answers with the page of the comments whose `post`
is the given id, whose `parentComment` is null and whose `isDeleted` is false;
the posts collection is never read. Population of `author` and `replies` is left
out. -/
def listComments (db : Store) (newestFirst : List ObjectId) (postId : String)
    (pageQuery limitQuery : Option Nat) : Response CommentPage × Store :=
  let page := queryOr pageQuery 1
  let limit := queryOr limitQuery 20
  let skip := (page - 1) * limit
  match castObjectId postId with
  | none => (serverError, db)
  | some pid =>
    let found := newestFirst.filterMap (fun i =>
      match db.comments i with
      | some c =>
        if c.post = pid ∧ c.parentComment = none ∧ c.isDeleted = false then
          some ({ id := i, comment := c } : CommentData)
        else none
      | none => none)
    ({ status := 200, success := true, message := "",
       data := some { comments := (found.drop skip).take limit, page := page, limit := limit,
                      total := found.length, pages := (found.length + limit - 1) / limit } }, db)

/-! ## `routes/follows.js` with rejected database calls -/

/-- The follow handler when database calls may reject. `fails k` tells whether
the k-th awaited call of the request rejects: 1 `findById(targetUserId)`,
2 `findById(currentUserId)`, 3 the update of the actor's `following`, 4 the
update of the target's `followers`, 5 and 6 the two `updateFollowCounts`. A
rejection jumps to the single `catch` block, which answers 500 `Server error`;
what was written before stays written. -/
def toggleFollowFaulty (fails : Nat → Bool) (db : Store) (targetUserId : String)
    (currentUserId : ObjectId) : Response FollowData × Store :=
  if targetUserId = currentUserId.toString then
    ({ status := 400, success := false, message := "You cannot follow yourself", data := none }, db)
  else if fails 1 then (serverError, db)
  else
    match castObjectId targetUserId with
    | none => (serverError, db)
    | some targetId =>
      match db.users targetId with
      | none => ({ status := 404, success := false, message := "User not found", data := none }, db)
      | some targetUser =>
        if fails 2 then (serverError, db)
        else
          match db.users currentUserId with
          | none => (serverError, db)
          | some currentUser =>
            let isFollowing := includes currentUser.following targetUserId
            if isFollowing then
              if fails 3 then (serverError, db)
              else
                let db1 := User.findByIdAndUpdate db currentUserId
                  (fun u => { u with following := pull u.following targetId })
                if fails 4 then (serverError, db1)
                else
                  let db2 := User.findByIdAndUpdate db1 targetId
                    (fun u => { u with followers := pull u.followers currentUserId })
                  if fails 5 then (serverError, db2)
                  else
                    let r3 := User.updateFollowCounts db2 currentUserId currentUser
                    if fails 6 then (serverError, r3.2)
                    else
                      let r4 := User.updateFollowCounts r3.2 targetId targetUser
                      ({ status := 200, success := true,
                         message := "User unfollowed successfully",
                         data := some { isFollowing := false,
                                        followersCount := r4.1.followersCount - 1,
                                        followingCount := r3.1.followingCount - 1 } }, r4.2)
            else
              if fails 3 then (serverError, db)
              else
                let db1 := User.findByIdAndUpdate db currentUserId
                  (fun u => { u with following := addToSet u.following targetId })
                if fails 4 then (serverError, db1)
                else
                  let db2 := User.findByIdAndUpdate db1 targetId
                    (fun u => { u with followers := addToSet u.followers currentUserId })
                  if fails 5 then (serverError, db2)
                  else
                    let r3 := User.updateFollowCounts db2 currentUserId currentUser
                    if fails 6 then (serverError, r3.2)
                    else
                      let r4 := User.updateFollowCounts r3.2 targetId targetUser
                      ({ status := 200, success := true,
                         message := "User followed successfully",
                         data := some { isFollowing := true,
                                        followersCount := r4.1.followersCount + 1,
                                        followingCount := r3.1.followingCount + 1 } }, r4.2)

/-- The fault in which only the k-th database call rejects. -/
def failsAt (k : Nat) : Nat → Bool :=
  fun n => n == k

/-! ## The id codec -/

theorem hexValue_hexChar (d : Fin 16) : hexValue (hexChar d) = some d := by
  revert d
  decide

theorem parseHex_map_hexChar (ds : List (Fin 16)) : parseHex (ds.map hexChar) = some ds := by
  induction ds with
  | nil => rfl
  | cons d ds ih => simp [parseHex, hexValue_hexChar, ih]

theorem castObjectId_toString (o : ObjectId) : castObjectId o.toString = some o := by
  obtain ⟨ds, h⟩ := o
  simp [castObjectId, ObjectId.toString, parseHex_map_hexChar, h]

theorem ObjectId.toString_injective {a b : ObjectId} (h : a.toString = b.toString) : a = b := by
  have ha := castObjectId_toString a
  rw [h, castObjectId_toString] at ha
  exact (Option.some.inj ha).symm

theorem ObjectId.toString_eq_iff (a b : ObjectId) : a.toString = b.toString ↔ a = b :=
  ⟨ObjectId.toString_injective, fun h => h ▸ rfl⟩

/-! ## Likes: the counter after a toggle -/

theorem post_removeLike_count (p : Post) (u : ObjectId) :
    (p.removeLike u).likesCount = ((p.removeLike u).likes.length : Int) := rfl

theorem post_addLike_count (p : Post) (u : ObjectId) (now : Nat) (h : p.isLikedBy u = false) :
    (p.addLike u now).likesCount = ((p.addLike u now).likes.length : Int) := by
  simp [Post.addLike, h]

theorem comment_removeLike_count (c : Comment) (u : ObjectId) :
    (c.removeLike u).likesCount = ((c.removeLike u).likes.length : Int) := rfl

theorem comment_addLike_count (c : Comment) (u : ObjectId) (now : Nat)
    (h : c.isLikedBy u = false) :
    (c.addLike u now).likesCount = ((c.addLike u now).likes.length : Int) := by
  simp [Comment.addLike, h]

theorem togglePostLike_effect (db : Store) (s : String) (u : ObjectId) (now : Nat)
    (h : (togglePostLike db s u now).1.status = 200) :
    ∃ pid p1, castObjectId s = some pid ∧
      (togglePostLike db s u now).2.posts = (fun i => if i = pid then some p1 else db.posts i) ∧
      p1.likesCount = (p1.likes.length : Int) ∧
      (togglePostLike db s u now).2.comments = db.comments := by
  unfold togglePostLike at h ⊢
  cases hc : castObjectId s with
  | none => simp [hc, serverError] at h
  | some pid =>
    cases hp : db.posts pid with
    | none => simp [hc, hp] at h
    | some post =>
      by_cases hs : post.status = PostStatus.published
      · cases hl : post.isLikedBy u
        · refine ⟨pid, post.addLike u now, rfl, ?_, post_addLike_count post u now hl, ?_⟩
          · simp [hp, hs, hl, Post.save, User.findByIdAndUpdate]
          · simp [hp, hs, hl, Post.save, User.findByIdAndUpdate]
        · refine ⟨pid, post.removeLike u, rfl, ?_, post_removeLike_count post u, ?_⟩
          · simp [hp, hs, hl, Post.save, User.findByIdAndUpdate]
          · simp [hp, hs, hl, Post.save, User.findByIdAndUpdate]
      · simp [hc, hp, hs] at h

theorem toggleCommentLike_effect (db : Store) (s : String) (u : ObjectId) (now : Nat)
    (h : (toggleCommentLike db s u now).1.status = 200) :
    ∃ cid c1, castObjectId s = some cid ∧
      (toggleCommentLike db s u now).2.comments
        = (fun i => if i = cid then some c1 else db.comments i) ∧
      c1.likesCount = (c1.likes.length : Int) ∧
      (toggleCommentLike db s u now).2.posts = db.posts := by
  unfold toggleCommentLike at h ⊢
  cases hc : castObjectId s with
  | none => simp [hc, serverError] at h
  | some cid =>
    cases hp : db.comments cid with
    | none => simp [hc, hp] at h
    | some comment =>
      cases hd : comment.isDeleted
      · cases hl : comment.isLikedBy u
        · refine ⟨cid, comment.addLike u now, rfl, ?_, comment_addLike_count comment u now hl, ?_⟩
          · simp [hp, hd, hl, Comment.save]
          · simp [hp, hd, hl, Comment.save]
        · refine ⟨cid, comment.removeLike u, rfl, ?_, comment_removeLike_count comment u, ?_⟩
          · simp [hp, hd, hl, Comment.save]
          · simp [hp, hd, hl, Comment.save]
      · simp [hc, hp, hd] at h

theorem commentsLike_eq (db : Store) (s : String) (u : ObjectId) (now : Nat) :
    commentsLike db s u now = toggleCommentLike db s u now := rfl

theorem LikeRequest.run_posts (db : Store) (r : LikeRequest) (h : (r.run db).1.status = 200)
    (q : ObjectId) :
    (r.postTarget = some q →
      ∃ p1, (r.run db).2.posts q = some p1 ∧ p1.likesCount = (p1.likes.length : Int)) ∧
    (r.postTarget ≠ some q → (r.run db).2.posts q = db.posts q) := by
  cases r with
  | post s u now =>
    obtain ⟨pid, p1, hc, hposts, hcount, -⟩ := togglePostLike_effect db s u now h
    simp only [LikeRequest.run, LikeRequest.postTarget, hc, hposts]
    constructor
    · intro hq
      have : q = pid := (Option.some.inj hq).symm
      exact ⟨p1, by simp [this], hcount⟩
    · intro hq
      have : q ≠ pid := fun e => hq (by rw [e])
      simp [this]
  | comment s u now =>
    obtain ⟨cid, c1, -, -, -, hposts⟩ := toggleCommentLike_effect db s u now h
    simp [LikeRequest.run, LikeRequest.postTarget, hposts]
  | commentsRoute s u now =>
    obtain ⟨cid, c1, -, -, -, hposts⟩ := toggleCommentLike_effect db s u now h
    simp [LikeRequest.run, LikeRequest.postTarget, commentsLike_eq, hposts]

theorem LikeRequest.run_comments (db : Store) (r : LikeRequest) (h : (r.run db).1.status = 200)
    (q : ObjectId) :
    (r.commentTarget = some q →
      ∃ c1, (r.run db).2.comments q = some c1 ∧ c1.likesCount = (c1.likes.length : Int)) ∧
    (r.commentTarget ≠ some q → (r.run db).2.comments q = db.comments q) := by
  cases r with
  | post s u now =>
    obtain ⟨pid, p1, -, -, -, hcomments⟩ := togglePostLike_effect db s u now h
    simp [LikeRequest.run, LikeRequest.commentTarget, hcomments]
  | comment s u now =>
    obtain ⟨cid, c1, hc, hcomments, hcount, -⟩ := toggleCommentLike_effect db s u now h
    simp only [LikeRequest.run, LikeRequest.commentTarget, hc, hcomments]
    constructor
    · intro hq
      have : q = cid := (Option.some.inj hq).symm
      exact ⟨c1, by simp [this], hcount⟩
    · intro hq
      have : q ≠ cid := fun e => hq (by rw [e])
      simp [this]
  | commentsRoute s u now =>
    obtain ⟨cid, c1, hc, hcomments, hcount, -⟩ := toggleCommentLike_effect db s u now h
    simp only [LikeRequest.run, LikeRequest.commentTarget, commentsLike_eq, hc, hcomments]
    constructor
    · intro hq
      have : q = cid := (Option.some.inj hq).symm
      exact ⟨c1, by simp [this], hcount⟩
    · intro hq
      have : q ≠ cid := fun e => hq (by rw [e])
      simp [this]

theorem runLikes_keeps_post (rs : List LikeRequest) (db db1 : Store)
    (hrun : runLikes db rs = some db1) (q : ObjectId)
    (h : ∃ p, db.posts q = some p ∧ p.likesCount = (p.likes.length : Int)) :
    ∃ p1, db1.posts q = some p1 ∧ p1.likesCount = (p1.likes.length : Int) := by
  induction rs generalizing db with
  | nil =>
    simp only [runLikes, Option.some.injEq] at hrun
    exact hrun ▸ h
  | cons r rs ih =>
    unfold runLikes at hrun
    by_cases hs : (r.run db).1.status = 200
    · rw [if_pos hs] at hrun
      apply ih _ hrun
      by_cases ht : r.postTarget = some q
      · exact (LikeRequest.run_posts db r hs q).1 ht
      · rw [(LikeRequest.run_posts db r hs q).2 ht]
        exact h
    · rw [if_neg hs] at hrun
      exact absurd hrun (by simp)

theorem runLikes_keeps_comment (rs : List LikeRequest) (db db1 : Store)
    (hrun : runLikes db rs = some db1) (q : ObjectId)
    (h : ∃ c, db.comments q = some c ∧ c.likesCount = (c.likes.length : Int)) :
    ∃ c1, db1.comments q = some c1 ∧ c1.likesCount = (c1.likes.length : Int) := by
  induction rs generalizing db with
  | nil =>
    simp only [runLikes, Option.some.injEq] at hrun
    exact hrun ▸ h
  | cons r rs ih =>
    unfold runLikes at hrun
    by_cases hs : (r.run db).1.status = 200
    · rw [if_pos hs] at hrun
      apply ih _ hrun
      by_cases ht : r.commentTarget = some q
      · exact (LikeRequest.run_comments db r hs q).1 ht
      · rw [(LikeRequest.run_comments db r hs q).2 ht]
        exact h
    · rw [if_neg hs] at hrun
      exact absurd hrun (by simp)

/-! ## C2 -/

/-- C2: like counter-cardinality. After any sequence of successful like toggles
(on posts through `routes/likes.js`, on comments through either comment-like
handler), started from an arbitrary store, every post and every comment that
one of the requests addressed has its stored `likesCount` equal to the length
of its stored `likes` list. -/
theorem like_counter_cardinality (rs : List LikeRequest) (db db1 : Store)
    (hrun : runLikes db rs = some db1) :
    (∀ r ∈ rs, ∀ q, r.postTarget = some q →
      ∃ p1, db1.posts q = some p1 ∧ p1.likesCount = (p1.likes.length : Int)) ∧
    (∀ r ∈ rs, ∀ q, r.commentTarget = some q →
      ∃ c1, db1.comments q = some c1 ∧ c1.likesCount = (c1.likes.length : Int)) := by
  induction rs generalizing db with
  | nil => simp
  | cons r0 rs ih =>
    unfold runLikes at hrun
    by_cases hs : (r0.run db).1.status = 200
    · rw [if_pos hs] at hrun
      obtain ⟨ihp, ihc⟩ := ih _ hrun
      constructor
      · intro r hr q hq
        rcases List.mem_cons.mp hr with rfl | hr
        · exact runLikes_keeps_post rs _ db1 hrun q ((LikeRequest.run_posts db r hs q).1 hq)
        · exact ihp r hr q hq
      · intro r hr q hq
        rcases List.mem_cons.mp hr with rfl | hr
        · exact runLikes_keeps_comment rs _ db1 hrun q ((LikeRequest.run_comments db r hs q).1 hq)
        · exact ihc r hr q hq
    · rw [if_neg hs] at hrun
      exact absurd hrun (by simp)

/-- The three like requests used to exercise C2 on `driftedStore`. -/
theorem like_counter_cardinality_witness :
    runLikes driftedStore
        [LikeRequest.post postOne.toString bob 5, LikeRequest.comment commentOne.toString alice 6,
         LikeRequest.commentsRoute commentOne.toString bob 7]
      = some (commentsLike (toggleCommentLike (togglePostLike driftedStore postOne.toString bob 5).2
          commentOne.toString alice 6).2 commentOne.toString bob 7).2 ∧
    (∃ p1, (commentsLike (toggleCommentLike (togglePostLike driftedStore postOne.toString bob 5).2
          commentOne.toString alice 6).2 commentOne.toString bob 7).2.posts postOne = some p1 ∧
        p1.likesCount = (p1.likes.length : Int)) ∧
    (∃ c1, (commentsLike (toggleCommentLike (togglePostLike driftedStore postOne.toString bob 5).2
          commentOne.toString alice 6).2 commentOne.toString bob 7).2.comments commentOne = some c1 ∧
        c1.likesCount = (c1.likes.length : Int)) := by
  have hrun : runLikes driftedStore
        [LikeRequest.post postOne.toString bob 5, LikeRequest.comment commentOne.toString alice 6,
         LikeRequest.commentsRoute commentOne.toString bob 7]
      = some (commentsLike (toggleCommentLike (togglePostLike driftedStore postOne.toString bob 5).2
          commentOne.toString alice 6).2 commentOne.toString bob 7).2 := rfl
  have h := like_counter_cardinality _ _ _ hrun
  exact ⟨hrun, h.1 _ (List.mem_cons_self _ _) postOne (by decide),
    h.2 _ (List.mem_cons_of_mem _ (List.mem_cons_self _ _)) commentOne (by decide)⟩

/-! ## Likes: membership -/

theorem any_user_eq_iff (likes : List Like) (u : ObjectId) :
    likes.any (fun like => like.user.toString == u.toString) = true ↔ u ∈ likers likes := by
  simp only [likers, List.any_eq_true, List.mem_map, beq_iff_eq, ObjectId.toString_eq_iff]

theorem Post.isLikedBy_iff (p : Post) (u : ObjectId) :
    p.isLikedBy u = true ↔ u ∈ likers p.likes :=
  any_user_eq_iff p.likes u

theorem Post.isLikedBy_eq_decide (p : Post) (u : ObjectId) :
    p.isLikedBy u = decide (u ∈ likers p.likes) := by
  by_cases h : u ∈ likers p.likes
  · simp [h, (Post.isLikedBy_iff p u).2 h]
  · have : p.isLikedBy u = false := by
      cases hb : p.isLikedBy u
      · rfl
      · exact absurd ((Post.isLikedBy_iff p u).1 hb) h
    simp [h, this]

theorem likers_filter (likes : List Like) (u : ObjectId) :
    likers (likes.filter (fun like => like.user.toString != u.toString))
      = (likers likes).filter (fun v => v != u) := by
  induction likes with
  | nil => rfl
  | cons l ls ih =>
    by_cases h : l.user = u
    · simp [likers, List.filter_cons, h] at ih ⊢
      exact ih
    · have h1 : l.user.toString ≠ u.toString := fun e => h (ObjectId.toString_injective e)
      simp [likers, List.filter_cons, h, h1] at ih ⊢
      exact ih

theorem Post.likers_removeLike (p : Post) (u : ObjectId) :
    likers (p.removeLike u).likes = (likers p.likes).filter (fun v => v != u) :=
  likers_filter p.likes u

theorem Post.likers_addLike (p : Post) (u : ObjectId) (now : Nat) (h : p.isLikedBy u = false) :
    likers (p.addLike u now).likes = likers p.likes ++ [u] := by
  simp [Post.addLike, h, likers]

/-- The store and the answer of a like toggle on a published post. -/
theorem togglePostLike_published (db : Store) (s : String) (pid : ObjectId) (post : Post)
    (u : ObjectId) (now : Nat) (hc : castObjectId s = some pid) (hp : db.posts pid = some post)
    (hs : post.status = PostStatus.published) :
    (togglePostLike db s u now).1.status = 200 ∧
    (togglePostLike db s u now).2.posts pid
      = some (if post.isLikedBy u then post.removeLike u else post.addLike u now) ∧
    (togglePostLike db s u now).1.data
      = some { isLiked := !post.isLikedBy u,
               likesCount := (if post.isLikedBy u then post.removeLike u
                              else post.addLike u now).likesCount } := by
  unfold togglePostLike
  cases hl : post.isLikedBy u <;>
    simp [hc, hp, hs, hl, Post.save, User.findByIdAndUpdate]

/-! ## C8 -/

/-- C8: result of `togglePostLike`. For a published post and any user `u`, the
request succeeds; the returned `isLiked` is the negation of whether `u` was in
the stored `likes` before the call; `u` is in the stored `likes` after the call
exactly when the returned `isLiked` is true; and the returned `likesCount` is the
length of the stored `likes` after the call. -/
theorem togglePostLike_result (db : Store) (s : String) (pid : ObjectId) (post : Post)
    (u : ObjectId) (now : Nat) (hc : castObjectId s = some pid) (hp : db.posts pid = some post)
    (hs : post.status = PostStatus.published) :
    ∃ post1 data,
      (togglePostLike db s u now).1.status = 200 ∧
      (togglePostLike db s u now).1.data = some data ∧
      (togglePostLike db s u now).2.posts pid = some post1 ∧
      data.isLiked = !decide (u ∈ likers post.likes) ∧
      (u ∈ likers post1.likes ↔ data.isLiked = true) ∧
      data.likesCount = (post1.likes.length : Int) := by
  obtain ⟨h1, h2, h3⟩ := togglePostLike_published db s pid post u now hc hp hs
  refine ⟨_, _, h1, h3, h2, ?_, ?_, ?_⟩
  · simp [Post.isLikedBy_eq_decide]
  · cases hl : post.isLikedBy u
    · simp [Post.likers_addLike post u now hl]
    · simp [Post.likers_removeLike]
  · cases hl : post.isLikedBy u
    · simpa using post_addLike_count post u now hl
    · simpa using post_removeLike_count post u

/-- Bob likes the post that Alice already likes: the answer is `isLiked = true`, count 2. -/
theorem togglePostLike_result_witness :
    castObjectId postOne.toString = some postOne ∧ likedStore.posts postOne = some likedPost ∧
    likedPost.status = PostStatus.published ∧
    ∃ post1 data,
      (togglePostLike likedStore postOne.toString bob 9).1.status = 200 ∧
      (togglePostLike likedStore postOne.toString bob 9).1.data = some data ∧
      (togglePostLike likedStore postOne.toString bob 9).2.posts postOne = some post1 ∧
      data.isLiked = !decide (bob ∈ likers likedPost.likes) ∧
      (bob ∈ likers post1.likes ↔ data.isLiked = true) ∧
      data.likesCount = (post1.likes.length : Int) :=
  ⟨by decide, by decide, by decide,
    togglePostLike_result likedStore postOne.toString postOne likedPost bob 9
      (by decide) (by decide) (by decide)⟩

/-! ## C9 -/

/-- C9: a like on a non-published post is rejected. For a stored post whose
status is `draft` or `archived` and any user, `togglePostLike` answers 400
`Cannot like unpublished post` and returns the store unchanged, so the post's
`likes` and `likesCount` and the user's `likedPosts` are as before. -/
theorem togglePostLike_unpublished (db : Store) (s : String) (pid : ObjectId) (post : Post)
    (u : ObjectId) (now : Nat) (hc : castObjectId s = some pid) (hp : db.posts pid = some post)
    (hs : post.status = PostStatus.draft ∨ post.status = PostStatus.archived) :
    (togglePostLike db s u now).1
      = { status := 400, success := false, message := "Cannot like unpublished post",
          data := none } ∧
    (togglePostLike db s u now).2 = db ∧
    (togglePostLike db s u now).2.posts pid = some post ∧
    (togglePostLike db s u now).2.users u = db.users u := by
  have hne : post.status ≠ PostStatus.published := by
    rcases hs with h | h <;> simp [h]
  simp [togglePostLike, hc, hp, hne]

/-- Bob tries to like the draft post of `closedStore`. -/
theorem togglePostLike_unpublished_witness :
    castObjectId postOne.toString = some postOne ∧ closedStore.posts postOne = some draftPost ∧
    (draftPost.status = PostStatus.draft ∨ draftPost.status = PostStatus.archived) ∧
    (togglePostLike closedStore postOne.toString bob 9).1
      = { status := 400, success := false, message := "Cannot like unpublished post",
          data := none } ∧
    (togglePostLike closedStore postOne.toString bob 9).2 = closedStore ∧
    (togglePostLike closedStore postOne.toString bob 9).2.posts postOne = some draftPost ∧
    (togglePostLike closedStore postOne.toString bob 9).2.users bob = closedStore.users bob :=
  ⟨by decide, by decide, by decide,
    togglePostLike_unpublished closedStore postOne.toString postOne draftPost bob 9
      (by decide) (by decide) (by decide)⟩

/-! ## C10 -/

/-- C10: a like on a soft-deleted comment is rejected by both handlers. For a
stored comment with `isDeleted = true` and any user, `POST /api/likes/comment/:commentId`
and `POST /api/comments/:id/like` both answer 400 `Cannot like deleted comment`
and return the store unchanged, so the comment's `likes` and `likesCount` are as
before. -/
theorem commentLike_deleted (db : Store) (s : String) (cid : ObjectId) (comment : Comment)
    (u : ObjectId) (now : Nat) (hc : castObjectId s = some cid)
    (hp : db.comments cid = some comment) (hd : comment.isDeleted = true) :
    ((toggleCommentLike db s u now).1
        = { status := 400, success := false, message := "Cannot like deleted comment",
            data := none } ∧
      (toggleCommentLike db s u now).2 = db ∧
      (toggleCommentLike db s u now).2.comments cid = some comment) ∧
    ((commentsLike db s u now).1
        = { status := 400, success := false, message := "Cannot like deleted comment",
            data := none } ∧
      (commentsLike db s u now).2 = db ∧
      (commentsLike db s u now).2.comments cid = some comment) := by
  simp [toggleCommentLike, commentsLike, hc, hp, hd]

/-- Alice tries to like the deleted comment of `closedStore` through both handlers. -/
theorem commentLike_deleted_witness :
    castObjectId commentOne.toString = some commentOne ∧
    closedStore.comments commentOne = some deletedComment ∧
    deletedComment.isDeleted = true ∧
    (toggleCommentLike closedStore commentOne.toString alice 9).1.status = 400 ∧
    (toggleCommentLike closedStore commentOne.toString alice 9).2.comments commentOne
      = some deletedComment ∧
    (commentsLike closedStore commentOne.toString alice 9).1.status = 400 ∧
    (commentsLike closedStore commentOne.toString alice 9).2.comments commentOne
      = some deletedComment := by
  have h := commentLike_deleted closedStore commentOne.toString commentOne deletedComment alice 9
    (by decide) (by decide) (by decide)
  refine ⟨by decide, by decide, by decide, ?_, h.1.2.2, ?_, h.2.2.2⟩
  · rw [h.1.1]
  · rw [h.2.1]

/-! ## Likes: repeated toggles by one user -/

theorem length_filter_user (likes : List Like) (u : ObjectId) (hn : (likers likes).Nodup)
    (hu : u ∈ likers likes) :
    (likes.filter (fun like => like.user.toString != u.toString)).length + 1 = likes.length := by
  induction likes with
  | nil => simp [likers] at hu
  | cons l ls ih =>
    simp only [likers, List.map_cons, List.nodup_cons, List.mem_cons] at hn hu
    by_cases h : l.user = u
    · have hnot : u ∉ likers ls := h ▸ hn.1
      have hall : ls.filter (fun like => like.user.toString != u.toString) = ls := by
        apply List.filter_eq_self.2
        intro a ha
        have : a.user ≠ u := fun e => hnot (e ▸ List.mem_map_of_mem Like.user ha)
        simpa [ObjectId.toString_eq_iff] using this
      simp [List.filter_cons, h, hall]
    · have h1 : l.user.toString ≠ u.toString := fun e => h (ObjectId.toString_injective e)
      have hu1 : u ∈ likers ls := by
        rcases hu with e | e
        · exact absurd e.symm h
        · exact e
      have := ih hn.2 hu1
      simp [List.filter_cons, h1]
      omega

/-- What one like toggle of user `u` does to a published post with distinct
likers and a faithful counter. -/
theorem Post.toggle_step (p : Post) (u : ObjectId) (now : Nat)
    (hn : (likers p.likes).Nodup) :
    let p1 := if p.isLikedBy u then p.removeLike u else p.addLike u now
    p1.status = p.status ∧ (likers p1.likes).Nodup ∧
    p1.likesCount = (p1.likes.length : Int) ∧
    (u ∈ likers p1.likes ↔ u ∉ likers p.likes) ∧
    (∀ v, v ≠ u → (v ∈ likers p1.likes ↔ v ∈ likers p.likes)) ∧
    (p1.likes.length + (if u ∈ likers p1.likes then 0 else 1)
      = p.likes.length + (if u ∈ likers p.likes then 0 else 1)) := by
  cases hl : p.isLikedBy u
  · have hu : u ∉ likers p.likes := fun h => by
      rw [(Post.isLikedBy_iff p u).2 h] at hl
      exact Bool.noConfusion hl
    have hL := Post.likers_addLike p u now hl
    simp only [Bool.false_eq_true, if_false]
    refine ⟨by simp [Post.addLike, hl], ?_, post_addLike_count p u now hl, ?_, ?_, ?_⟩
    · rw [hL]
      exact List.Nodup.append hn (List.nodup_singleton u) (by simpa using hu)
    · simp [hL, hu]
    · intro v hv
      simp [hL, hv]
    · have hmem : u ∈ likers (p.addLike u now).likes := by simp [hL]
      rw [if_pos hmem, if_neg hu]
      simp [Post.addLike, hl]
  · have hu : u ∈ likers p.likes := (Post.isLikedBy_iff p u).1 hl
    have hL := Post.likers_removeLike p u
    simp only [if_true]
    refine ⟨rfl, ?_, post_removeLike_count p u, ?_, ?_, ?_⟩
    · rw [hL]
      exact hn.filter _
    · simp [hL, hu]
    · intro v hv
      simp [hL, hv]
    · have hmem : u ∉ likers (p.removeLike u).likes := by simp [hL]
      have hlen := length_filter_user p.likes u hn hu
      simp only [hmem, hu, if_true, if_false]
      simpa [Post.removeLike] using hlen

theorem repeatedPostLike_run (s : String) (pid u : ObjectId) (hc : castObjectId s = some pid)
    (nows : List Nat) (db : Store) (post : Post) (hp : db.posts pid = some post)
    (hs : post.status = PostStatus.published) (hn : (likers post.likes).Nodup) :
    ∃ db1 post1, runLikes db (repeatedPostLike s u nows) = some db1 ∧
      db1.posts pid = some post1 ∧
      (nows ≠ [] → post1.likesCount = (post1.likes.length : Int)) ∧
      (∀ v, v ≠ u → (v ∈ likers post1.likes ↔ v ∈ likers post.likes)) ∧
      (Even nows.length → (u ∈ likers post1.likes ↔ u ∈ likers post.likes)) ∧
      (Odd nows.length → (u ∈ likers post1.likes ↔ u ∉ likers post.likes)) ∧
      (post1.likes.length + (if u ∈ likers post1.likes then 0 else 1)
        = post.likes.length + (if u ∈ likers post.likes then 0 else 1)) ∧
      (nows = [] → post1 = post) := by
  induction nows generalizing db post with
  | nil =>
    exact ⟨db, post, rfl, hp, fun h => absurd rfl h, fun _ _ => Iff.rfl, fun _ => Iff.rfl,
      fun h => absurd h (by decide), rfl, fun _ => rfl⟩
  | cons now nows ih =>
    obtain ⟨h200, hpost, -⟩ := togglePostLike_published db s pid post u now hc hp hs
    obtain ⟨t1, t2, t3, t4, t5, t6⟩ := Post.toggle_step post u now hn
    obtain ⟨db1, post1, r1, r2, r3, r4, r5, r6, r7, r8⟩ :=
      ih (togglePostLike db s u now).2 _ hpost (t1.trans hs) t2
    refine ⟨db1, post1, ?_, r2, ?_, ?_, ?_, ?_, ?_, fun h => absurd h (by simp)⟩
    · simp only [repeatedPostLike, List.map_cons, runLikes, LikeRequest.run, h200, if_true]
      exact r1
    · intro _
      by_cases hnil : nows = []
      · rw [r8 hnil]
        exact t3
      · exact r3 hnil
    · intro v hv
      exact (r4 v hv).trans (t5 v hv)
    · intro he
      have ho : Odd nows.length := by
        rw [List.length_cons, Nat.even_add_one, Nat.not_even_iff_odd] at he
        exact he
      rw [r6 ho, t4, not_not]
    · intro ho
      have he : Even nows.length := by
        rw [List.length_cons, Nat.odd_add_one, Nat.not_odd_iff_even] at ho
        exact ho
      rw [r5 he, t4]
    · rw [r7, t6]

/-! ## C4 -/

/-- C4: an even number of like toggles restores the state. For a published post
whose likers are pairwise distinct and whose `likesCount` equals the length of
`likes`, and any user `u`: every one of `n` consecutive `togglePostLike` calls by
`u` succeeds; if `n` is even (in particular `n = 2`) the set of users in `likes`
and the value of `likesCount` are the original ones; if `n` is odd the
membership of `u` is flipped and the membership of every other user is as
before. -/
theorem togglePostLike_even_odd (db : Store) (s : String) (pid : ObjectId) (post : Post)
    (u : ObjectId) (nows : List Nat) (hc : castObjectId s = some pid)
    (hp : db.posts pid = some post) (hs : post.status = PostStatus.published)
    (hn : (likers post.likes).Nodup) (hcount : post.likesCount = (post.likes.length : Int)) :
    ∃ db1 post1, runLikes db (repeatedPostLike s u nows) = some db1 ∧
      db1.posts pid = some post1 ∧
      (Even nows.length →
        (∀ v, v ∈ likers post1.likes ↔ v ∈ likers post.likes) ∧
        post1.likesCount = post.likesCount) ∧
      (Odd nows.length →
        (u ∈ likers post1.likes ↔ u ∉ likers post.likes) ∧
        (∀ v, v ≠ u → (v ∈ likers post1.likes ↔ v ∈ likers post.likes))) := by
  obtain ⟨db1, post1, r1, r2, r3, r4, r5, r6, r7, r8⟩ :=
    repeatedPostLike_run s pid u hc nows db post hp hs hn
  refine ⟨db1, post1, r1, r2, ?_, fun ho => ⟨r6 ho, r4⟩⟩
  intro he
  constructor
  · intro v
    by_cases hv : v = u
    · rw [hv]
      exact r5 he
    · exact r4 v hv
  · by_cases hnil : nows = []
    · rw [r8 hnil]
    · rw [r3 hnil, hcount]
      have hiff := r5 he
      by_cases hu : u ∈ likers post.likes
      · rw [if_pos (hiff.2 hu), if_pos hu] at r7
        simp only [Nat.add_zero] at r7
        rw [r7]
      · rw [if_neg (fun h => hu (hiff.1 h)), if_neg hu] at r7
        have : post1.likes.length = post.likes.length := by omega
        rw [this]

/-- Alice, who likes `postOne` in `likedStore`, toggles twice: the likers and the
counter are back to the original ones. -/
theorem togglePostLike_even_odd_witness :
    castObjectId postOne.toString = some postOne ∧ likedStore.posts postOne = some likedPost ∧
    likedPost.status = PostStatus.published ∧ (likers likedPost.likes).Nodup ∧
    likedPost.likesCount = (likedPost.likes.length : Int) ∧
    ∃ db1 post1, runLikes likedStore (repeatedPostLike postOne.toString alice [10, 11]) = some db1 ∧
      db1.posts postOne = some post1 ∧
      (∀ v, v ∈ likers post1.likes ↔ v ∈ likers likedPost.likes) ∧
      post1.likesCount = likedPost.likesCount := by
  obtain ⟨db1, post1, h1, h2, h3, -⟩ :=
    togglePostLike_even_odd likedStore postOne.toString postOne likedPost alice [10, 11]
      (by decide) (by decide) (by decide) (by decide) (by decide)
  exact ⟨by decide, by decide, by decide, by decide, by decide, db1, post1, h1, h2,
    h3 (by decide)⟩

/-! ## Follows: what one toggle writes -/

theorem includes_toString (xs : List ObjectId) (b : ObjectId) :
    includes xs b.toString = decide (b ∈ xs) := by
  induction xs with
  | nil => rfl
  | cons x xs ih =>
    simp only [includes, List.any_cons] at ih ⊢
    rw [ih]
    by_cases h : x = b
    · simp [h]
    · have h1 : x.toString ≠ b.toString := fun e => h (ObjectId.toString_injective e)
      have h2 : b ≠ x := fun e => h e.symm
      simp [h1, h2]

/-- A follow (the target is not yet in the actor's `following`), for distinct
stored users and the canonical id string of the target: the arrays receive the
new entry, the stored counters receive the lengths the arrays had *before* the
call, and the answer carries those lengths plus one. -/
theorem toggleFollow_follow (db : Store) (a b : ObjectId) (ua ub : User) (hne : a ≠ b)
    (ha : db.users a = some ua) (hb : db.users b = some ub) (hnf : b ∉ ua.following) :
    (toggleFollow db b.toString a).1
      = { status := 200, success := true, message := "User followed successfully",
          data := some { isFollowing := true,
                         followersCount := (ub.followers.length : Int) + 1,
                         followingCount := (ua.following.length : Int) + 1 } } ∧
    (toggleFollow db b.toString a).2.users a
      = some { ua with following := addToSet ua.following b,
                       followersCount := (ua.followers.length : Int),
                       followingCount := (ua.following.length : Int) } ∧
    (toggleFollow db b.toString a).2.users b
      = some { ub with followers := addToSet ub.followers a,
                       followersCount := (ub.followers.length : Int),
                       followingCount := (ub.following.length : Int) } ∧
    (∀ i, i ≠ a → i ≠ b → (toggleFollow db b.toString a).2.users i = db.users i) := by
  have hs : b.toString ≠ a.toString := fun e => hne (ObjectId.toString_injective e).symm
  have hne2 : b ≠ a := fun e => hne e.symm
  have hinc : includes ua.following b.toString = false := by
    rw [includes_toString]
    simp [hnf]
  refine ⟨?_, ?_, ?_, ?_⟩
  · simp [toggleFollow, hs, castObjectId_toString, ha, hb, hinc, User.updateFollowCounts]
  · simp [toggleFollow, hs, castObjectId_toString, ha, hb, hinc, User.updateFollowCounts,
      User.findByIdAndUpdate, hne]
  · simp [toggleFollow, hs, castObjectId_toString, ha, hb, hinc, User.updateFollowCounts,
      User.findByIdAndUpdate, hne2]
  · intro i hia hib
    simp [toggleFollow, hs, castObjectId_toString, ha, hb, hinc, User.updateFollowCounts,
      User.findByIdAndUpdate, hia, hib]

/-- An unfollow (the target is in the actor's `following`), for distinct stored
users and the canonical id string of the target. -/
theorem toggleFollow_unfollow (db : Store) (a b : ObjectId) (ua ub : User) (hne : a ≠ b)
    (ha : db.users a = some ua) (hb : db.users b = some ub) (hf : b ∈ ua.following) :
    (toggleFollow db b.toString a).1
      = { status := 200, success := true, message := "User unfollowed successfully",
          data := some { isFollowing := false,
                         followersCount := (ub.followers.length : Int) - 1,
                         followingCount := (ua.following.length : Int) - 1 } } ∧
    (toggleFollow db b.toString a).2.users a
      = some { ua with following := pull ua.following b,
                       followersCount := (ua.followers.length : Int),
                       followingCount := (ua.following.length : Int) } ∧
    (toggleFollow db b.toString a).2.users b
      = some { ub with followers := pull ub.followers a,
                       followersCount := (ub.followers.length : Int),
                       followingCount := (ub.following.length : Int) } ∧
    (∀ i, i ≠ a → i ≠ b → (toggleFollow db b.toString a).2.users i = db.users i) := by
  have hs : b.toString ≠ a.toString := fun e => hne (ObjectId.toString_injective e).symm
  have hne2 : b ≠ a := fun e => hne e.symm
  have hinc : includes ua.following b.toString = true := by
    rw [includes_toString]
    simp [hf]
  refine ⟨?_, ?_, ?_, ?_⟩
  · simp [toggleFollow, hs, castObjectId_toString, ha, hb, hinc, User.updateFollowCounts]
  · simp [toggleFollow, hs, castObjectId_toString, ha, hb, hinc, User.updateFollowCounts,
      User.findByIdAndUpdate, hne]
  · simp [toggleFollow, hs, castObjectId_toString, ha, hb, hinc, User.updateFollowCounts,
      User.findByIdAndUpdate, hne2]
  · intro i hia hib
    simp [toggleFollow, hs, castObjectId_toString, ha, hb, hinc, User.updateFollowCounts,
      User.findByIdAndUpdate, hia, hib]

/-! ## C6 -/

/-- The follow / unfollow scenario when both requests carry the canonical
(lower-case) string of B's id. If user A follows nobody and user B has no
followers (A and B distinct stored users), the first request answers
`isFollowing: true, followersCount: 1, followingCount: 1`, and the second
answers `isFollowing: false, followersCount: 0, followingCount: 0`. -/
theorem follow_unfollow_scenario (db : Store) (a b : ObjectId) (ua ub : User) (hne : a ≠ b)
    (ha : db.users a = some ua) (hb : db.users b = some ub)
    (hfollowing : ua.following = []) (hfollowers : ub.followers = []) :
    (toggleFollow db b.toString a).1.status = 200 ∧
    (toggleFollow db b.toString a).1.data
      = some { isFollowing := true, followersCount := 1, followingCount := 1 } ∧
    (toggleFollow (toggleFollow db b.toString a).2 b.toString a).1.status = 200 ∧
    (toggleFollow (toggleFollow db b.toString a).2 b.toString a).1.data
      = some { isFollowing := false, followersCount := 0, followingCount := 0 } := by
  obtain ⟨r1, ua1, ub1, -⟩ :=
    toggleFollow_follow db a b ua ub hne ha hb (by simp [hfollowing])
  obtain ⟨r2, -⟩ :=
    toggleFollow_unfollow (toggleFollow db b.toString a).2 a b _ _ hne ua1 ub1
      (by simp [addToSet, hfollowing])
  rw [r1, r2]
  simp [hfollowing, hfollowers, addToSet]

/-- Alice follows and then unfollows Bob in the store of two fresh users. -/
theorem follow_unfollow_scenario_witness :
    alice ≠ bob ∧ twoUsers.users alice = some freshUser ∧ twoUsers.users bob = some freshUser ∧
    freshUser.following = [] ∧ freshUser.followers = [] ∧
    (toggleFollow twoUsers bob.toString alice).1.status = 200 ∧
    (toggleFollow twoUsers bob.toString alice).1.data
      = some { isFollowing := true, followersCount := 1, followingCount := 1 } ∧
    (toggleFollow (toggleFollow twoUsers bob.toString alice).2 bob.toString alice).1.status = 200 ∧
    (toggleFollow (toggleFollow twoUsers bob.toString alice).2 bob.toString alice).1.data
      = some { isFollowing := false, followersCount := 0, followingCount := 0 } :=
  ⟨by decide, by decide, by decide, rfl, rfl,
    follow_unfollow_scenario twoUsers alice bob freshUser freshUser (by decide) (by decide)
      (by decide) rfl rfl⟩

/-- C6: evaluation of the follow / unfollow scenario when B's id is spelled
with an upper-case digit. In `twoUsers` Alice follows nobody and Bob has no
followers; the string `00000000000000000000000B` denotes Bob. The first request
answers `isFollowing: true, followersCount: 1, followingCount: 1`. The second
request right after does not unfollow: `includes` compares the raw string with
the lower-case strings of the stored ids, finds nothing, and the answer is
`isFollowing: true, followersCount: 2, followingCount: 2`, while Alice's
`following` and Bob's `followers` still hold one entry each. -/
theorem toggleFollow_scenario_upper_case :
    twoUsers.users alice = some freshUser ∧ twoUsers.users bob = some freshUser ∧
    freshUser.following = [] ∧ freshUser.followers = [] ∧
    castObjectId "00000000000000000000000B" = some bob ∧
    (toggleFollow twoUsers "00000000000000000000000B" alice).1
      = { status := 200, success := true, message := "User followed successfully",
          data := some { isFollowing := true, followersCount := 1, followingCount := 1 } } ∧
    (toggleFollow (toggleFollow twoUsers "00000000000000000000000B" alice).2
        "00000000000000000000000B" alice).1
      = { status := 200, success := true, message := "User followed successfully",
          data := some { isFollowing := true, followersCount := 2, followingCount := 2 } } ∧
    (toggleFollow (toggleFollow twoUsers "00000000000000000000000B" alice).2
        "00000000000000000000000B" alice).2.users alice
      = some { freshUser with following := [bob], followingCount := 1 } ∧
    (toggleFollow (toggleFollow twoUsers "00000000000000000000000B" alice).2
        "00000000000000000000000B" alice).2.users bob
      = some { freshUser with followers := [alice], followersCount := 1 } := by
  decide

/-! ## C1, C3, C5, C7: the handler evaluated on concrete stores -/

/-- C1: evaluation of one successful follow on a store whose counters agree
with the arrays. Alice follows Bob in `twoUsers`: afterwards the stored
`alice.following` has one entry while the stored `followingCount` is 0, and the
stored `bob.followers` has one entry while the stored `followersCount` is 0. -/
theorem toggleFollow_stored_counts_lag :
    (toggleFollow twoUsers bob.toString alice).1.status = 200 ∧
    (toggleFollow twoUsers bob.toString alice).2.users alice
      = some { freshUser with following := [bob], followingCount := 0 } ∧
    (toggleFollow twoUsers bob.toString alice).2.users bob
      = some { freshUser with followers := [alice], followersCount := 0 } := by
  decide

/-- C3: evaluation of two consecutive toggles. Alice follows and unfollows Bob
in `twoUsers`: both calls succeed and the arrays are empty again, but the stored
`alice.followingCount` and `bob.followersCount` are 1, not the original 0. -/
theorem toggleFollow_twice_counts_differ :
    (toggleFollow twoUsers bob.toString alice).1.status = 200 ∧
    (toggleFollow (toggleFollow twoUsers bob.toString alice).2 bob.toString alice).1.status = 200 ∧
    twoUsers.users alice = some freshUser ∧ twoUsers.users bob = some freshUser ∧
    (toggleFollow (toggleFollow twoUsers bob.toString alice).2 bob.toString alice).2.users alice
      = some { freshUser with following := [], followingCount := 1 } ∧
    (toggleFollow (toggleFollow twoUsers bob.toString alice).2 bob.toString alice).2.users bob
      = some { freshUser with followers := [], followersCount := 1 } := by
  decide

/-- C5: evaluation of a self-follow through the upper-case spelling of the
actor's own id. The string `00000000000000000000000A` denotes `alice`, whose
canonical string is `00000000000000000000000a`; the guard compares the two
strings, finds them different, and the request is answered 200 with Alice
recorded in her own `following` and `followers`. -/
theorem toggleFollow_self_via_upper_case :
    alice.toString = "00000000000000000000000a" ∧
    castObjectId "00000000000000000000000A" = some alice ∧
    (toggleFollow twoUsers "00000000000000000000000A" alice).1
      = { status := 200, success := true, message := "User followed successfully",
          data := some { isFollowing := true, followersCount := 1, followingCount := 1 } } ∧
    (toggleFollow twoUsers "00000000000000000000000A" alice).2.users alice
      = some { freshUser with followers := [alice], following := [alice] } := by
  decide

/-- C7: evaluation of an unfollow on the store an interrupted follow left
behind. Alice unfollows Bob in `halfFollowed`: the answer carries
`followersCount = -1`, while the stored `bob.followers` after the call has 0
entries. -/
theorem toggleFollow_returned_count_not_cardinality :
    (toggleFollow halfFollowed bob.toString alice).1
      = { status := 200, success := true, message := "User unfollowed successfully",
          data := some { isFollowing := false, followersCount := -1, followingCount := 0 } } ∧
    (toggleFollow halfFollowed bob.toString alice).2.users bob = some freshUser ∧
    freshUser.followers.length = 0 := by
  decide

/-- The guard of the follow handler on the canonical string of the actor's own
id: status 400, nothing written. -/
theorem toggleFollow_self_canonical (db : Store) (a : ObjectId) :
    toggleFollow db a.toString a
      = ({ status := 400, success := false, message := "You cannot follow yourself",
           data := none }, db) := by
  simp [toggleFollow]

/-! ## Comments: what a successful create writes -/

/-- Everything a create request answered with 201 has read and written. -/
theorem createComment_effect (db : Store) (content postId : String)
    (parentCommentId : Option String) (userId newId : ObjectId)
    (h : (createComment db content postId parentCommentId userId newId).1.status = 201) :
    ∃ pid post, castObjectId postId = some pid ∧ db.posts pid = some post ∧
      db.comments newId = none ∧
      (Comment.new content userId pid (parentTarget parentCommentId)).contentValid = true ∧
      (∀ ps, parentCommentId = some ps →
        ∃ q c, castObjectId ps = some q ∧ db.comments q = some c) ∧
      (createComment db content postId parentCommentId userId newId).1.data
        = some { id := newId,
                 comment := Comment.new content userId pid (parentTarget parentCommentId) } ∧
      (createComment db content postId parentCommentId userId newId).2.users = db.users ∧
      (createComment db content postId parentCommentId userId newId).2.posts
        = (fun i => if i = pid then some { post with commentsCount := post.commentsCount + 1 }
                    else db.posts i) ∧
      (createComment db content postId parentCommentId userId newId).2.comments
        = (fun i => if i = newId then
                      some (Comment.new content userId pid (parentTarget parentCommentId))
                    else if parentTarget parentCommentId = some i then
                      (db.comments i).map (fun c => { c with replies := c.replies ++ [newId] })
                    else db.comments i) := by
  unfold createComment at h ⊢
  by_cases hv : createCommentAccepted content postId parentCommentId = true
  swap
  · simp [hv] at h
  cases hc : castObjectId postId with
  | none => simp [hv, hc, serverError] at h
  | some pid =>
    cases hp : db.posts pid with
    | none => simp [hv, hc, hp] at h
    | some post =>
      cases parentCommentId with
      | none =>
        cases hn : db.comments newId with
        | some c0 => simp [hv, hc, hp, Comment.insert, hn, serverError] at h
        | none =>
          by_cases hcv : (Comment.new content userId pid none).contentValid = true
          · refine ⟨pid, post, rfl, hp, rfl, by simpa [parentTarget] using hcv, by simp, ?_, ?_, ?_, ?_⟩
            · simp [hv, hp, Comment.insert, hn, Comment.saveValidated, hcv, parentTarget]
            · simp [hv, hp, Comment.insert, hn, Comment.saveValidated, hcv,
                Post.findByIdAndUpdate, Comment.save]
            · funext i
              by_cases hi : i = pid
              · simp [hv, hp, Comment.insert, hn, Comment.saveValidated, hcv,
                  Post.findByIdAndUpdate, Comment.save, hi]
              · simp [hv, hp, Comment.insert, hn, Comment.saveValidated, hcv,
                  Post.findByIdAndUpdate, Comment.save, hi]
            · funext i
              simp [hv, hp, Comment.insert, hn, Comment.saveValidated, hcv,
                Post.findByIdAndUpdate, Comment.save, parentTarget]
          · simp [hv, hc, hp, Comment.insert, hn, Comment.saveValidated, hcv,
              serverError] at h
      | some ps =>
        cases hq : castObjectId ps with
        | none => simp [hv, hc, hp, hq, serverError] at h
        | some q =>
          cases hqc : db.comments q with
          | none => simp [hv, hc, hp, hq, hqc] at h
          | some c =>
            cases hn : db.comments newId with
            | some c0 => simp [hv, hc, hp, hq, hqc, Comment.insert, hn, serverError] at h
            | none =>
              by_cases hcv : (Comment.new content userId pid (some q)).contentValid = true
              · have hne : q ≠ newId := fun e => by rw [e, hn] at hqc; exact Option.noConfusion hqc
                refine ⟨pid, post, rfl, hp, rfl, by simpa [parentTarget, hq] using hcv, ?_,
                  ?_, ?_, ?_, ?_⟩
                · intro ps1 h1
                  cases h1
                  exact ⟨q, c, hq, hqc⟩
                · simp [hv, hp, hq, hqc, Comment.insert, hn, Comment.saveValidated, hcv,
                    parentTarget]
                · simp [hv, hp, hq, hqc, Comment.insert, hn, Comment.saveValidated, hcv,
                    Post.findByIdAndUpdate, Comment.findByIdAndUpdate, Comment.save]
                · funext i
                  by_cases hi : i = pid
                  · simp [hv, hp, hq, hqc, Comment.insert, hn, Comment.saveValidated, hcv,
                      Post.findByIdAndUpdate, Comment.findByIdAndUpdate, Comment.save, hi]
                  · simp [hv, hp, hq, hqc, Comment.insert, hn, Comment.saveValidated, hcv,
                      Post.findByIdAndUpdate, Comment.findByIdAndUpdate, Comment.save, hi]
                · funext i
                  by_cases hi : i = newId
                  · have hqi : q ≠ i := fun e => hne (e.trans hi)
                    simp [hv, hp, hq, hqc, Comment.insert, hn, Comment.saveValidated, hcv,
                      Post.findByIdAndUpdate, Comment.findByIdAndUpdate, Comment.save,
                      parentTarget, hi, hne.symm]
                  · by_cases hiq : i = q
                    · simp [hv, hp, hq, hqc, Comment.insert, hn, Comment.saveValidated, hcv,
                        Post.findByIdAndUpdate, Comment.findByIdAndUpdate, Comment.save,
                        parentTarget, hiq, hne]
                    · have hqi : q ≠ i := fun e => hiq e.symm
                      simp [hv, hp, hq, hqc, Comment.insert, hn, Comment.saveValidated, hcv,
                        Post.findByIdAndUpdate, Comment.findByIdAndUpdate, Comment.save,
                        parentTarget, hi, hiq, hqi]
              · simp [hv, hc, hp, hq, hqc, Comment.insert, hn, Comment.saveValidated,
                  hcv, serverError] at h

theorem contentValid_new (content : String) (author post : ObjectId)
    (parent : Option ObjectId) :
    (Comment.new content author post parent).contentValid = contentStorable content := rfl

theorem contentValid_setContent (c : Comment) (content : String) :
    (c.setContent content).contentValid = contentStorable content := rfl

theorem jsTrim_tombstone : jsTrim tombstone = tombstone := by decide

theorem contentValid_softDelete (c : Comment) : c.softDelete.contentValid = true := by
  have h : contentStorable tombstone = true := by decide
  exact h

theorem softDelete_eq (c : Comment) :
    c.softDelete = { c with isDeleted := true, content := tombstone } := by
  simp [Comment.softDelete, Comment.setContent, jsTrim_tombstone]

/-- A create request that passes validation, names a stored post and (if any) a
stored parent, brings a fresh id and a storable body is answered with 201. -/
theorem createComment_succeeds (db : Store) (content postId : String)
    (parentCommentId : Option String) (userId newId pid : ObjectId) (post : Post)
    (hv : createCommentAccepted content postId parentCommentId = true)
    (hc : castObjectId postId = some pid) (hp : db.posts pid = some post)
    (hparent : ∀ ps, parentCommentId = some ps →
      ∃ q c, castObjectId ps = some q ∧ db.comments q = some c)
    (hfresh : db.comments newId = none) (hs : contentStorable content = true) :
    (createComment db content postId parentCommentId userId newId).1.status = 201 := by
  unfold createComment
  cases parentCommentId with
  | none =>
    simp [hv, hc, hp, Comment.insert, hfresh, Comment.saveValidated, contentValid_new, hs]
  | some ps =>
    obtain ⟨q, c, hq, hqc⟩ := hparent ps rfl
    simp [hv, hc, hp, hq, hqc, Comment.insert, hfresh, Comment.saveValidated, contentValid_new, hs]

/-! ## Comments: what a delete writes -/

/-- A delete request of the author of a stored comment: answered with 200, the
comment becomes its tombstone, the counter of its post goes down by one. -/
theorem deleteComment_effect (db : Store) (id : String) (cid userId : ObjectId) (c : Comment)
    (hc : castObjectId id = some cid) (hcom : db.comments cid = some c)
    (hauthor : c.author = userId) :
    (deleteComment db id userId).1
      = { status := 200, success := true, message := "Comment deleted successfully",
          data := none } ∧
    (deleteComment db id userId).2.users = db.users ∧
    (deleteComment db id userId).2.posts
      = (fun i => if i = c.post then
                    (db.posts i).map (fun p => { p with commentsCount := p.commentsCount - 1 })
                  else db.posts i) ∧
    (deleteComment db id userId).2.comments
      = (fun i => if i = cid then some { c with isDeleted := true, content := tombstone }
                  else db.comments i) := by
  subst hauthor
  have hs := contentValid_softDelete c
  have hs2 : Comment.contentValid { c with isDeleted := true, content := tombstone } = true := by
    rw [← softDelete_eq]
    exact hs
  have hpost : c.softDelete.post = c.post := rfl
  refine ⟨?_, ?_, ?_, ?_⟩
  · simp [deleteComment, hc, hcom, Comment.saveValidated, hs]
  · simp [deleteComment, hc, hcom, Comment.saveValidated, hs, Post.findByIdAndUpdate,
      Comment.save]
  · funext i
    simp [deleteComment, hc, hcom, Comment.saveValidated, hs, Post.findByIdAndUpdate,
      Comment.save, hpost]
  · funext i
    simp [deleteComment, hc, hcom, Comment.saveValidated, hs2, Post.findByIdAndUpdate,
      Comment.save, softDelete_eq]

theorem ne_empty_of_cast (s : String) (pid : ObjectId) (h : castObjectId s = some pid) :
    s ≠ "" := by
  intro e
  have hnone : castObjectId "" = none := by decide
  rw [e, hnone] at h
  exact Option.noConfusion h

theorem hexValue_small (c : Char) (d : Fin 16) (h : hexValue c = some d) : c.toNat < 65536 := by
  unfold hexValue at h
  simp only at h
  split_ifs at h <;> omega

theorem parseHex_shape (cs : List Char) (ds : List (Fin 16)) (h : parseHex cs = some ds) :
    cs.all isHexDigit = true ∧ ds.length = cs.length ∧
    (cs.map (fun c => if c.toNat < 65536 then 1 else 2)).sum = cs.length := by
  induction cs generalizing ds with
  | nil =>
    simp only [parseHex, Option.some.injEq] at h
    subst h
    simp
  | cons c cs ih =>
    unfold parseHex at h
    cases hv : hexValue c with
    | none => simp [hv] at h
    | some d =>
      cases hr : parseHex cs with
      | none => simp [hv, hr] at h
      | some ds0 =>
        simp only [hv, hr, Option.some.injEq] at h
        subst h
        obtain ⟨h1, h2, h3⟩ := ih ds0 hr
        have hsmall := hexValue_small c d hv
        refine ⟨?_, ?_, ?_⟩
        · simp only [List.all_cons, Bool.and_eq_true]
          exact ⟨by simp [isHexDigit, hv], h1⟩
        · simp [h2]
        · simp only [List.map_cons, List.sum_cons, hsmall, if_true, h3, List.length_cons]
          omega

theorem isMongoId_of_cast (s : String) (pid : ObjectId) (h : castObjectId s = some pid) :
    isMongoId s = true := by
  unfold castObjectId at h
  cases hp : parseHex s.data with
  | none => simp [hp] at h
  | some ds =>
    obtain ⟨h1, h2, h3⟩ := parseHex_shape s.data ds hp
    by_cases hl : ds.length = 24
    · have hlen : s.data.length = 24 := by rw [← h2, hl]
      have hne : s.data.isEmpty = false := by
        cases hd : s.data with
        | nil => simp [hd] at hlen
        | cons c cs => rfl
      have hrun : isHexRun s.data = true := by simp [isHexRun, hne, h1]
      have hu : utf16Length s = 24 := by
        unfold utf16Length
        rw [h3, hlen]
      simp [isMongoId, isHexadecimal, hrun, hu]
    · simp [hp, hl] at h

/-- A create request passes validation when its body passes, its `postId` is a
well-formed id and its `parentCommentId`, if present, is a well-formed id. -/
theorem createCommentAccepted_of_cast (content postId : String)
    (parentCommentId : Option String) (pid : ObjectId) (hb : contentAccepted content = true)
    (hc : castObjectId postId = some pid)
    (hpar : ∀ ps, parentCommentId = some ps → ∃ q, castObjectId ps = some q) :
    createCommentAccepted content postId parentCommentId = true := by
  have h1 := ne_empty_of_cast postId pid hc
  have h2 := isMongoId_of_cast postId pid hc
  cases parentCommentId with
  | none => simp [createCommentAccepted, hb, h1, h2]
  | some ps =>
    obtain ⟨q, hq⟩ := hpar ps rfl
    simp [createCommentAccepted, hb, h1, h2, isMongoId_of_cast ps q hq]

/-! ## C11 -/

/-- C11: evaluation of a delete issued twice. In `threadStore` the post
`postOne` has one live comment and `commentsCount = 1`. Its author Bob deletes
the comment twice: both requests are answered 200, the comment is a tombstone,
and the stored `commentsCount` of the post is -1 although the post has no live
comment (the count of live comments is 0). -/
theorem deleteComment_twice_counts_twice :
    threadStore.comments commentOne = some liveComment ∧
    threadStore.posts postOne = some { emptyPost with commentsCount := 1 } ∧
    (deleteComment threadStore commentOne.toString bob).1.status = 200 ∧
    (deleteComment threadStore commentOne.toString bob).2.posts postOne = some emptyPost ∧
    (deleteComment (deleteComment threadStore commentOne.toString bob).2
        commentOne.toString bob).1.status = 200 ∧
    (deleteComment (deleteComment threadStore commentOne.toString bob).2
        commentOne.toString bob).2.comments commentOne
      = some { liveComment with content := tombstone, isDeleted := true } ∧
    (deleteComment (deleteComment threadStore commentOne.toString bob).2
        commentOne.toString bob).2.posts postOne
      = some { emptyPost with commentsCount := -1 } := by
  decide

/-! ## C12 -/

/-- C12: comment-then-delete scenario. For a stored post P with
`commentsCount = 0`, `createComment(u, P, "hi")` is answered 201 and makes
`P.commentsCount = 1`; a following `softDeleteComment(u, commentId)` by the same
author is answered 200 and makes `P.commentsCount = 0`, and the comment record
still exists with `isDeleted = true` and the content
`[This comment has been deleted]`. -/
theorem comment_then_delete (db : Store) (postId commentId : String) (pid u newId : ObjectId)
    (post : Post) (hc : castObjectId postId = some pid) (hp : db.posts pid = some post)
    (h0 : post.commentsCount = 0) (hfresh : db.comments newId = none)
    (hd : castObjectId commentId = some newId) :
    (createComment db "hi" postId none u newId).1.status = 201 ∧
    (∃ p1, (createComment db "hi" postId none u newId).2.posts pid = some p1 ∧
      p1.commentsCount = 1) ∧
    (deleteComment (createComment db "hi" postId none u newId).2 commentId u).1.status = 200 ∧
    (∃ p2, (deleteComment (createComment db "hi" postId none u newId).2 commentId u).2.posts pid
        = some p2 ∧ p2.commentsCount = 0) ∧
    (∃ c, (deleteComment (createComment db "hi" postId none u newId).2 commentId u).2.comments newId
        = some c ∧ c.isDeleted = true ∧ c.content = "[This comment has been deleted]") := by
  have hv : createCommentAccepted "hi" postId none = true :=
    createCommentAccepted_of_cast "hi" postId none pid (by decide) hc (by simp)
  have h201 := createComment_succeeds db "hi" postId none u newId pid post hv hc hp (by simp)
    hfresh (by decide)
  obtain ⟨pid1, post1, e1, e2, -, -, -, -, -, hposts, hcomments⟩ :=
    createComment_effect db "hi" postId none u newId h201
  have hpid : pid1 = pid := Option.some.inj (e1.symm.trans hc)
  subst hpid
  have hpost : post1 = post := Option.some.inj (e2.symm.trans hp)
  subst hpost
  have hnew : (createComment db "hi" postId none u newId).2.comments newId
      = some (Comment.new "hi" u pid1 none) := by
    rw [hcomments]
    simp [parentTarget]
  obtain ⟨d1, -, d3, d4⟩ :=
    deleteComment_effect (createComment db "hi" postId none u newId).2 commentId newId u _
      hd hnew rfl
  have hcpost : (Comment.new "hi" u pid1 none).post = pid1 := rfl
  refine ⟨h201, ⟨{ post1 with commentsCount := post1.commentsCount + 1 }, ?_, ?_⟩, ?_,
    ⟨{ post1 with commentsCount := post1.commentsCount + 1 - 1 }, ?_, ?_⟩, ?_⟩
  · rw [hposts]
    simp
  · show post1.commentsCount + 1 = 1
    rw [h0]
    rfl
  · rw [d1]
  · rw [d3, hposts, hcpost]
    simp
  · show post1.commentsCount + 1 - 1 = 0
    rw [h0]
    rfl
  · refine ⟨{ Comment.new "hi" u pid1 none with isDeleted := true, content := tombstone },
      ?_, rfl, rfl⟩
    rw [d4]
    simp

/-- Alice comments `hi` on the empty post `postTwo` of `threadStore` and deletes
the comment again. -/
theorem comment_then_delete_witness :
    castObjectId postTwo.toString = some postTwo ∧ threadStore.posts postTwo = some emptyPost ∧
    emptyPost.commentsCount = 0 ∧ threadStore.comments commentTwo = none ∧
    castObjectId commentTwo.toString = some commentTwo ∧
    (createComment threadStore "hi" postTwo.toString none alice commentTwo).1.status = 201 ∧
    (∃ p1, (createComment threadStore "hi" postTwo.toString none alice commentTwo).2.posts postTwo
        = some p1 ∧ p1.commentsCount = 1) ∧
    (deleteComment (createComment threadStore "hi" postTwo.toString none alice commentTwo).2
        commentTwo.toString alice).1.status = 200 ∧
    (∃ p2, (deleteComment (createComment threadStore "hi" postTwo.toString none alice commentTwo).2
        commentTwo.toString alice).2.posts postTwo = some p2 ∧ p2.commentsCount = 0) ∧
    (∃ c, (deleteComment (createComment threadStore "hi" postTwo.toString none alice commentTwo).2
        commentTwo.toString alice).2.comments commentTwo = some c ∧ c.isDeleted = true ∧
        c.content = "[This comment has been deleted]") :=
  ⟨by decide, by decide, by decide, by decide, by decide,
    comment_then_delete threadStore postTwo.toString commentTwo.toString postTwo alice commentTwo
      emptyPost (by decide) (by decide) (by decide) (by decide) (by decide)⟩

/-! ## Comments: replies -/

/-- A reply request with a valid body, a stored post, a stored parent comment
and a fresh id: it is answered 201, the new comment is stored with that post and
that parent, the parent gets the new id appended to `replies`, and the counter
of the post goes up by one. Neither the post of the parent nor its `isDeleted`
flag is consulted. -/
theorem createComment_reply (db : Store) (content postId parentStr : String)
    (pid cid u newId : ObjectId) (post : Post) (parent : Comment)
    (hb : contentAccepted content = true) (hs : contentStorable content = true)
    (hc : castObjectId postId = some pid) (hp : db.posts pid = some post)
    (hcp : castObjectId parentStr = some cid) (hpar : db.comments cid = some parent)
    (hfresh : db.comments newId = none) :
    (createComment db content postId (some parentStr) u newId).1.status = 201 ∧
    (createComment db content postId (some parentStr) u newId).2.comments newId
      = some (Comment.new content u pid (some cid)) ∧
    (createComment db content postId (some parentStr) u newId).2.comments cid
      = some { parent with replies := parent.replies ++ [newId] } ∧
    (createComment db content postId (some parentStr) u newId).2.posts pid
      = some { post with commentsCount := post.commentsCount + 1 } := by
  have hex : ∀ ps, some parentStr = some ps →
      ∃ q c, castObjectId ps = some q ∧ db.comments q = some c := by
    intro ps e
    cases e
    exact ⟨cid, parent, hcp, hpar⟩
  have hv : createCommentAccepted content postId (some parentStr) = true :=
    createCommentAccepted_of_cast content postId (some parentStr) pid hb hc
      (fun ps e => by cases e; exact ⟨cid, hcp⟩)
  have h201 := createComment_succeeds db content postId (some parentStr) u newId pid post hv hc hp
    hex hfresh hs
  obtain ⟨pid1, post1, e1, e2, -, -, -, -, -, hposts, hcomments⟩ :=
    createComment_effect db content postId (some parentStr) u newId h201
  have hpid : pid1 = pid := Option.some.inj (e1.symm.trans hc)
  subst hpid
  have hpost : post1 = post := Option.some.inj (e2.symm.trans hp)
  subst hpost
  have hne : cid ≠ newId := fun e => by
    rw [e, hfresh] at hpar
    exact Option.noConfusion hpar
  have ht : parentTarget (some parentStr) = some cid := by simp [parentTarget, hcp]
  refine ⟨h201, ?_, ?_, ?_⟩
  · rw [hcomments, ht]
    simp
  · rw [hcomments, ht]
    simp [hne, hpar]
  · rw [hposts]
    simp

/-! ## C13 -/

/-- C13 as stated fails: in `threadStore` the comment `commentOne` belongs to
`postOne`, and `postTwo` is another stored post. Alice's reply on `postTwo` with
`parentCommentId = commentOne` is not rejected with 400: it is answered 201, the
comment `commentTwo` is created, `commentOne.replies` becomes `[commentTwo]` and
`postTwo.commentsCount` goes from 0 to 1. -/
theorem reply_across_posts_counterexample :
    threadStore.comments commentOne = some liveComment ∧ liveComment.post = postOne ∧
    threadStore.posts postTwo = some emptyPost ∧ postTwo ≠ postOne ∧
    (createComment threadStore "reply" postTwo.toString (some commentOne.toString) alice
        commentTwo).1.status = 201 ∧
    (createComment threadStore "reply" postTwo.toString (some commentOne.toString) alice
        commentTwo).2.comments commentTwo
      = some (Comment.new "reply" alice postTwo (some commentOne)) ∧
    (createComment threadStore "reply" postTwo.toString (some commentOne.toString) alice
        commentTwo).2.comments commentOne
      = some { liveComment with replies := [commentTwo] } ∧
    (createComment threadStore "reply" postTwo.toString (some commentOne.toString) alice
        commentTwo).2.posts postTwo
      = some { emptyPost with commentsCount := 1 } := by
  decide

/-- C13 (amended): a reply across posts is accepted. For every stored comment C1
belonging to post P1 and every stored post P2 different from P1,
`createComment(u, P2, body, parentCommentId = C1.id)` with a valid body and a
fresh id is answered 201; the comment is created on P2 with parent C1, the new
id is appended to `C1.replies`, and `P2.commentsCount` goes up by one. -/
theorem reply_across_posts_accepted (db : Store) (content postId parentStr : String)
    (p1 p2 cid u newId : ObjectId) (post2 : Post) (c1 : Comment)
    (hb : contentAccepted content = true) (hs : contentStorable content = true)
    (hc : castObjectId postId = some p2) (hp : db.posts p2 = some post2)
    (hcp : castObjectId parentStr = some cid) (hpar : db.comments cid = some c1)
    (_hbelongs : c1.post = p1) (_hne : p2 ≠ p1) (hfresh : db.comments newId = none) :
    (createComment db content postId (some parentStr) u newId).1.status = 201 ∧
    (createComment db content postId (some parentStr) u newId).2.comments newId
      = some (Comment.new content u p2 (some cid)) ∧
    (Comment.new content u p2 (some cid)).post = p2 ∧
    (Comment.new content u p2 (some cid)).parentComment = some cid ∧
    (createComment db content postId (some parentStr) u newId).2.comments cid
      = some { c1 with replies := c1.replies ++ [newId] } ∧
    (createComment db content postId (some parentStr) u newId).2.posts p2
      = some { post2 with commentsCount := post2.commentsCount + 1 } := by
  obtain ⟨h1, h2, h3, h4⟩ :=
    createComment_reply db content postId parentStr p2 cid u newId post2 c1 hb hs hc hp hcp hpar
      hfresh
  exact ⟨h1, h2, rfl, rfl, h3, h4⟩

/-- Alice replies on `postTwo` to Bob's comment on `postOne`. -/
theorem reply_across_posts_accepted_witness :
    contentAccepted "reply" = true ∧ contentStorable "reply" = true ∧
    castObjectId postTwo.toString = some postTwo ∧ threadStore.posts postTwo = some emptyPost ∧
    castObjectId commentOne.toString = some commentOne ∧
    threadStore.comments commentOne = some liveComment ∧ liveComment.post = postOne ∧
    postTwo ≠ postOne ∧ threadStore.comments commentTwo = none ∧
    (createComment threadStore "reply" postTwo.toString (some commentOne.toString) alice
        commentTwo).1.status = 201 ∧
    (createComment threadStore "reply" postTwo.toString (some commentOne.toString) alice
        commentTwo).2.comments commentOne
      = some { liveComment with replies := liveComment.replies ++ [commentTwo] } := by
  have h := reply_across_posts_accepted threadStore "reply" postTwo.toString commentOne.toString
    postOne postTwo commentOne alice commentTwo emptyPost liveComment (by decide) (by decide)
    (by decide) (by decide) (by decide) (by decide) (by decide) (by decide) (by decide)
  exact ⟨by decide, by decide, by decide, by decide, by decide, by decide, by decide, by decide,
    by decide, h.1, h.2.2.2.2.1⟩

/-! ## C14 -/

/-- C14 as stated fails: in `tombstoneStore` the comment `commentOne` on
`postOne` is soft-deleted. Alice's reply on `postOne` with
`parentCommentId = commentOne` is not rejected with 400: it is answered 201, the
comment `commentTwo` is created, `commentOne.replies` becomes `[commentTwo]` and
`postOne.commentsCount` goes from 0 to 1. -/
theorem reply_to_deleted_counterexample :
    tombstoneStore.comments commentOne
      = some { liveComment with content := tombstone, isDeleted := true } ∧
    liveComment.post = postOne ∧ tombstoneStore.posts postOne = some emptyPost ∧
    (createComment tombstoneStore "reply" postOne.toString (some commentOne.toString) alice
        commentTwo).1.status = 201 ∧
    (createComment tombstoneStore "reply" postOne.toString (some commentOne.toString) alice
        commentTwo).2.comments commentTwo
      = some (Comment.new "reply" alice postOne (some commentOne)) ∧
    (createComment tombstoneStore "reply" postOne.toString (some commentOne.toString) alice
        commentTwo).2.comments commentOne
      = some { liveComment with content := tombstone, isDeleted := true,
                                replies := [commentTwo] } ∧
    (createComment tombstoneStore "reply" postOne.toString (some commentOne.toString) alice
        commentTwo).2.posts postOne
      = some { emptyPost with commentsCount := 1 } := by
  decide

/-- C14 (amended): a reply to a soft-deleted parent is accepted. For every
stored post P and every stored comment C on P with `isDeleted = true`,
`createComment(u, P, body, parentCommentId = C.id)` with a valid body and a
fresh id is answered 201; the comment is created with parent C, the new id is
appended to `C.replies`, C stays deleted, and `P.commentsCount` goes up by one. -/
theorem reply_to_deleted_accepted (db : Store) (content postId parentStr : String)
    (pid cid u newId : ObjectId) (post : Post) (c : Comment)
    (hb : contentAccepted content = true) (hs : contentStorable content = true)
    (hc : castObjectId postId = some pid) (hp : db.posts pid = some post)
    (hcp : castObjectId parentStr = some cid) (hpar : db.comments cid = some c)
    (_hon : c.post = pid) (hdel : c.isDeleted = true) (hfresh : db.comments newId = none) :
    (createComment db content postId (some parentStr) u newId).1.status = 201 ∧
    (createComment db content postId (some parentStr) u newId).2.comments newId
      = some (Comment.new content u pid (some cid)) ∧
    (Comment.new content u pid (some cid)).parentComment = some cid ∧
    (∃ c1, (createComment db content postId (some parentStr) u newId).2.comments cid = some c1 ∧
      c1.replies = c.replies ++ [newId] ∧ c1.isDeleted = true ∧ c1.content = c.content) ∧
    (createComment db content postId (some parentStr) u newId).2.posts pid
      = some { post with commentsCount := post.commentsCount + 1 } := by
  obtain ⟨h1, h2, h3, h4⟩ :=
    createComment_reply db content postId parentStr pid cid u newId post c hb hs hc hp hcp hpar
      hfresh
  exact ⟨h1, h2, rfl, ⟨_, h3, rfl, hdel, rfl⟩, h4⟩

/-- Alice replies to the tombstone of `tombstoneStore`. -/
theorem reply_to_deleted_accepted_witness :
    contentAccepted "reply" = true ∧ contentStorable "reply" = true ∧
    castObjectId postOne.toString = some postOne ∧ tombstoneStore.posts postOne = some emptyPost ∧
    castObjectId commentOne.toString = some commentOne ∧
    tombstoneStore.comments commentOne
      = some { liveComment with content := tombstone, isDeleted := true } ∧
    tombstoneStore.comments commentTwo = none ∧
    (createComment tombstoneStore "reply" postOne.toString (some commentOne.toString) alice
        commentTwo).1.status = 201 ∧
    (createComment tombstoneStore "reply" postOne.toString (some commentOne.toString) alice
        commentTwo).2.posts postOne
      = some { emptyPost with commentsCount := emptyPost.commentsCount + 1 } := by
  have h := reply_to_deleted_accepted tombstoneStore "reply" postOne.toString commentOne.toString
    postOne commentOne alice commentTwo emptyPost
    { liveComment with content := tombstone, isDeleted := true } (by decide) (by decide)
    (by decide) (by decide) (by decide) (by decide) (by decide) (by decide) (by decide)
  exact ⟨by decide, by decide, by decide, by decide, by decide, by decide, by decide, h.1,
    h.2.2.2.2⟩

/-! ## C15 -/

/-- C15: `createComment` on missing referents. For a request that passes
validation, if `postId` names no stored post, or `parentCommentId` is given and
names no stored comment, the answer has status 404 and the store is returned
unchanged: no comment record is created, no `commentsCount` and no `replies`
list changes. -/
theorem createComment_missing_referent (db : Store) (content postId : String)
    (parentCommentId : Option String) (u newId pid : ObjectId)
    (hv : createCommentAccepted content postId parentCommentId = true)
    (hc : castObjectId postId = some pid)
    (hmissing : db.posts pid = none ∨
      ∃ ps q, parentCommentId = some ps ∧ castObjectId ps = some q ∧ db.comments q = none) :
    (createComment db content postId parentCommentId u newId).1.status = 404 ∧
    (createComment db content postId parentCommentId u newId).1.success = false ∧
    (createComment db content postId parentCommentId u newId).2 = db := by
  unfold createComment
  cases hp : db.posts pid with
  | none => simp [hv, hc, hp]
  | some post =>
    rcases hmissing with h | ⟨ps, q, h1, h2, h3⟩
    · rw [hp] at h
      exact Option.noConfusion h
    · subst h1
      simp [hv, hc, hp, h2, h3]

/-- A comment on a post that does not exist, and a reply to a comment that does
not exist, in `threadStore`. -/
theorem createComment_missing_referent_witness :
    (createCommentAccepted "hi" postOne.toString (some commentTwo.toString) = true ∧
      castObjectId postOne.toString = some postOne ∧
      castObjectId commentTwo.toString = some commentTwo ∧
      threadStore.comments commentTwo = none ∧
      (createComment threadStore "hi" postOne.toString (some commentTwo.toString) alice
        commentTwo).1.status = 404 ∧
      (createComment threadStore "hi" postOne.toString (some commentTwo.toString) alice
        commentTwo).2 = threadStore) ∧
    (createCommentAccepted "hi" alice.toString none = true ∧
      castObjectId alice.toString = some alice ∧ threadStore.posts alice = none ∧
      (createComment threadStore "hi" alice.toString none alice commentTwo).1.status = 404 ∧
      (createComment threadStore "hi" alice.toString none alice commentTwo).2 = threadStore) := by
  have h1 := createComment_missing_referent threadStore "hi" postOne.toString
    (some commentTwo.toString) alice commentTwo postOne (by decide) (by decide)
    (Or.inr ⟨commentTwo.toString, commentTwo, rfl, by decide, by decide⟩)
  have h2 := createComment_missing_referent threadStore "hi" alice.toString none alice commentTwo
    alice (by decide) (by decide) (Or.inl (by decide))
  exact ⟨⟨by decide, by decide, by decide, by decide, h1.1, h1.2.2⟩,
    ⟨by decide, by decide, by decide, h2.1, h2.2.2⟩⟩

/-! ## C16 -/

/-- One successful create request, seen from a stored comment `q`: `q` still
exists, and its `replies` list is the old one, with the new id appended when
the request names `q` as its parent. -/
theorem createComment_replies (db : Store) (r : CreateRequest)
    (h : (r.run db).1.status = 201) (q : ObjectId) (c : Comment) (hq : db.comments q = some c) :
    ∃ c1, (r.run db).2.comments q = some c1 ∧ c1.replies = c.replies ++ repliesTo q [r] := by
  obtain ⟨pid, post, -, -, hfresh, -, -, -, -, -, hcomments⟩ :=
    createComment_effect db r.content r.postId r.parentCommentId r.userId r.newId h
  have hne : q ≠ r.newId := fun e => by
    rw [e, hfresh] at hq
    exact Option.noConfusion hq
  by_cases ht : parentTarget r.parentCommentId = some q
  · refine ⟨{ c with replies := c.replies ++ [r.newId] }, ?_, ?_⟩
    · simp only [CreateRequest.run]
      rw [hcomments]
      simp [hne, ht, hq]
    · simp [repliesTo, ht]
  · refine ⟨c, ?_, ?_⟩
    · simp only [CreateRequest.run]
      rw [hcomments]
      simp [hne, ht, hq]
    · simp [repliesTo, ht]

/-- C16: reply ordering. After any sequence of successful create requests, the
`replies` list of a comment that was stored before is its old list `L` followed
by the ids of the comments created as replies to it, in the order of creation;
in particular one successful reply with new id `n` yields `L ++ [n]`. -/
theorem replies_in_creation_order (rs : List CreateRequest) (db db1 : Store)
    (hrun : runCreates db rs = some db1) (q : ObjectId) (c : Comment)
    (hq : db.comments q = some c) :
    ∃ c1, db1.comments q = some c1 ∧ c1.replies = c.replies ++ repliesTo q rs := by
  induction rs generalizing db c with
  | nil =>
    simp only [runCreates, Option.some.injEq] at hrun
    subst hrun
    exact ⟨c, hq, by simp [repliesTo]⟩
  | cons r rs ih =>
    unfold runCreates at hrun
    by_cases hs : (r.run db).1.status = 201
    · rw [if_pos hs] at hrun
      obtain ⟨c0, h0, e0⟩ := createComment_replies db r hs q c hq
      obtain ⟨c1, h1, e1⟩ := ih _ hrun c0 h0
      refine ⟨c1, h1, ?_⟩
      rw [e1, e0]
      simp [repliesTo, List.filter_cons]
      split <;> simp
    · rw [if_neg hs] at hrun
      exact absurd hrun (by simp)

/-- Two replies to `commentOne` in `threadStore`: its `replies` list ends with
the two new ids in the order of the requests. -/
theorem replies_in_creation_order_witness :
    runCreates threadStore [firstReply, secondReply]
      = some (secondReply.run (firstReply.run threadStore).2).2 ∧
    threadStore.comments commentOne = some liveComment ∧
    ∃ c1, (secondReply.run (firstReply.run threadStore).2).2.comments commentOne = some c1 ∧
      c1.replies = liveComment.replies ++ [commentTwo, commentThree] := by
  have hrun : runCreates threadStore [firstReply, secondReply]
      = some (secondReply.run (firstReply.run threadStore).2).2 := rfl
  obtain ⟨c1, h1, h2⟩ :=
    replies_in_creation_order [firstReply, secondReply] threadStore _ hrun commentOne liveComment
      (by decide)
  have hr : repliesTo commentOne [firstReply, secondReply] = [commentTwo, commentThree] := by
    decide
  exact ⟨hrun, by decide, c1, h1, by rw [h2, hr]⟩

/-! ## C17 -/

/-- C17: `createComment` increments exactly one counter by exactly one. A create
request answered 201 (top-level or reply) names a stored post P; afterwards P is
the old record with `commentsCount` one higher, every other post is unchanged,
the new comment is stored under the new id, the parent comment of a reply is the
old record with the new id appended to `replies`, every other comment is
unchanged, and no user record changes. -/
theorem createComment_frame (db : Store) (content postId : String)
    (parentCommentId : Option String) (u newId : ObjectId)
    (h : (createComment db content postId parentCommentId u newId).1.status = 201) :
    ∃ pid post, castObjectId postId = some pid ∧ db.posts pid = some post ∧
      (createComment db content postId parentCommentId u newId).2.posts pid
        = some { post with commentsCount := post.commentsCount + 1 } ∧
      (∀ i, i ≠ pid →
        (createComment db content postId parentCommentId u newId).2.posts i = db.posts i) ∧
      db.comments newId = none ∧
      (createComment db content postId parentCommentId u newId).2.comments newId
        = some (Comment.new content u pid (parentTarget parentCommentId)) ∧
      (∀ q, parentTarget parentCommentId = some q → ∃ c, db.comments q = some c ∧
        (createComment db content postId parentCommentId u newId).2.comments q
          = some { c with replies := c.replies ++ [newId] }) ∧
      (∀ i, i ≠ newId → parentTarget parentCommentId ≠ some i →
        (createComment db content postId parentCommentId u newId).2.comments i
          = db.comments i) ∧
      (createComment db content postId parentCommentId u newId).2.users = db.users := by
  obtain ⟨pid, post, e1, e2, hfresh, -, hpar, -, husers, hposts, hcomments⟩ :=
    createComment_effect db content postId parentCommentId u newId h
  refine ⟨pid, post, e1, e2, ?_, ?_, hfresh, ?_, ?_, ?_, husers⟩
  · rw [hposts]
    simp
  · intro i hi
    rw [hposts]
    simp [hi]
  · rw [hcomments]
    simp
  · intro q hq
    cases parentCommentId with
    | none => simp [parentTarget] at hq
    | some ps =>
      obtain ⟨q1, c, hc1, hc2⟩ := hpar ps rfl
      have hqq : q1 = q := by
        simp only [parentTarget, Option.bind, hc1] at hq
        exact Option.some.inj hq
      subst hqq
      have hne : q1 ≠ newId := fun e => by
        rw [e, hfresh] at hc2
        exact Option.noConfusion hc2
      refine ⟨c, hc2, ?_⟩
      rw [hcomments]
      simp [hne, hq, hc2]
  · intro i hi hn
    rw [hcomments]
    simp [hi, hn]

/-- Alice's reply `firstReply` in `threadStore`: the counter of `postOne` goes
from 1 to 2 and `postTwo` keeps its record. -/
theorem createComment_frame_witness :
    (firstReply.run threadStore).1.status = 201 ∧
    ∃ pid post, castObjectId postOne.toString = some pid ∧ threadStore.posts pid = some post ∧
      (firstReply.run threadStore).2.posts pid
        = some { post with commentsCount := post.commentsCount + 1 } ∧
      (∀ i, i ≠ pid → (firstReply.run threadStore).2.posts i = threadStore.posts i) := by
  have h201 : (firstReply.run threadStore).1.status = 201 := by decide
  obtain ⟨pid, post, h1, h2, h3, h4, -⟩ :=
    createComment_frame threadStore "one" postOne.toString (some commentOne.toString) alice
      commentTwo h201
  exact ⟨h201, pid, post, h1, h2, h3, h4⟩

/-! ## C18 -/

/-- C18: `softDeleteComment` is author-only. For a stored comment c and an actor
other than `c.author`, the delete request is answered 403
`Not authorized to delete this comment` and the store is returned unchanged (so
c and the `commentsCount` of its post are as before); for an id without a
stored comment it is answered 404 `Comment not found`, store unchanged. -/
theorem deleteComment_author_only (db : Store) (id : String) (cid a : ObjectId)
    (hc : castObjectId id = some cid) :
    (∀ c, db.comments cid = some c → a ≠ c.author →
      (deleteComment db id a).1
        = { status := 403, success := false, message := "Not authorized to delete this comment",
            data := none } ∧
      (deleteComment db id a).2 = db) ∧
    (db.comments cid = none →
      (deleteComment db id a).1
        = { status := 404, success := false, message := "Comment not found", data := none } ∧
      (deleteComment db id a).2 = db) := by
  constructor
  · intro c hcom hne
    have h1 : c.author.toString ≠ a.toString := fun e => hne (ObjectId.toString_injective e).symm
    simp [deleteComment, hc, hcom, h1]
  · intro hnone
    simp [deleteComment, hc, hnone]

/-- Alice tries to delete Bob's comment in `threadStore`, and Bob tries to
delete a comment that does not exist. -/
theorem deleteComment_author_only_witness :
    castObjectId commentOne.toString = some commentOne ∧
    threadStore.comments commentOne = some liveComment ∧ alice ≠ liveComment.author ∧
    (deleteComment threadStore commentOne.toString alice).1.status = 403 ∧
    (deleteComment threadStore commentOne.toString alice).2 = threadStore ∧
    castObjectId commentTwo.toString = some commentTwo ∧
    threadStore.comments commentTwo = none ∧
    (deleteComment threadStore commentTwo.toString bob).1.status = 404 ∧
    (deleteComment threadStore commentTwo.toString bob).2 = threadStore := by
  have h1 := (deleteComment_author_only threadStore commentOne.toString commentOne alice
    (by decide)).1 liveComment (by decide) (by decide)
  have h2 := (deleteComment_author_only threadStore commentTwo.toString commentTwo bob
    (by decide)).2 (by decide)
  refine ⟨by decide, by decide, by decide, ?_, h1.2, by decide, by decide, ?_, h2.2⟩
  · rw [h1.1]
  · rw [h2.1]

/-! ## C19 -/

/-- C19: soft delete preserves the thread structure. When the author of a stored
comment c deletes it, the request is answered 200; the record of c still exists
and differs from the old one only in `isDeleted` (now true) and `content` (now
the tombstone), so author, post, parentComment, replies, likes and likesCount
are as before; every other comment record is unchanged (so c keeps its place in
the `replies` list of its parent and no descendant is touched); every stored
comment has the same `replies` list as before; the post of c is the old record
with `commentsCount` one lower; every other post and every user is unchanged. -/
theorem deleteComment_preserves_thread (db : Store) (id : String) (cid a : ObjectId)
    (c : Comment) (hc : castObjectId id = some cid) (hcom : db.comments cid = some c)
    (hauthor : c.author = a) :
    (deleteComment db id a).1.status = 200 ∧
    (deleteComment db id a).2.comments cid
      = some { c with isDeleted := true, content := tombstone } ∧
    (∃ c1, (deleteComment db id a).2.comments cid = some c1 ∧
      c1.isDeleted = true ∧ c1.content = "[This comment has been deleted]" ∧
      c1.author = c.author ∧ c1.post = c.post ∧ c1.parentComment = c.parentComment ∧
      c1.replies = c.replies ∧ c1.likes = c.likes ∧ c1.likesCount = c.likesCount) ∧
    (∀ i, i ≠ cid → (deleteComment db id a).2.comments i = db.comments i) ∧
    (∀ i c0, db.comments i = some c0 →
      ∃ c1, (deleteComment db id a).2.comments i = some c1 ∧ c1.replies = c0.replies) ∧
    (∀ p, db.posts c.post = some p →
      (deleteComment db id a).2.posts c.post
        = some { p with commentsCount := p.commentsCount - 1 }) ∧
    (∀ i, i ≠ c.post → (deleteComment db id a).2.posts i = db.posts i) ∧
    (deleteComment db id a).2.users = db.users := by
  obtain ⟨d1, d2, d3, d4⟩ := deleteComment_effect db id cid a c hc hcom hauthor
  have hcid : (deleteComment db id a).2.comments cid
      = some { c with isDeleted := true, content := tombstone } := by
    rw [d4]
    simp
  refine ⟨by rw [d1], hcid, ⟨_, hcid, rfl, rfl, rfl, rfl, rfl, rfl, rfl, rfl⟩, ?_, ?_, ?_, ?_, d2⟩
  · intro i hi
    rw [d4]
    simp [hi]
  · intro i c0 hi
    by_cases e : i = cid
    · subst e
      have : c0 = c := Option.some.inj (hi.symm.trans hcom)
      subst this
      exact ⟨_, hcid, rfl⟩
    · refine ⟨c0, ?_, rfl⟩
      rw [d4]
      simp [e, hi]
  · intro p hp
    rw [d3]
    simp [hp]
  · intro i hi
    rw [d3]
    simp [hi]

/-- Bob deletes his comment `commentOne` in the store where Alice has replied
to it: the reply list of the tombstone still holds the reply. -/
theorem deleteComment_preserves_thread_witness :
    castObjectId commentOne.toString = some commentOne ∧
    (firstReply.run threadStore).2.comments commentOne
      = some { liveComment with replies := [commentTwo] } ∧
    liveComment.author = bob ∧
    (deleteComment (firstReply.run threadStore).2 commentOne.toString bob).1.status = 200 ∧
    (deleteComment (firstReply.run threadStore).2 commentOne.toString bob).2.comments commentOne
      = some { liveComment with replies := [commentTwo], isDeleted := true,
                                content := tombstone } ∧
    (deleteComment (firstReply.run threadStore).2 commentOne.toString bob).2.comments commentTwo
      = (firstReply.run threadStore).2.comments commentTwo := by
  have h := deleteComment_preserves_thread (firstReply.run threadStore).2 commentOne.toString
    commentOne bob { liveComment with replies := [commentTwo] } (by decide) (by decide)
    (by decide)
  exact ⟨by decide, by decide, by decide, h.1, h.2.1, h.2.2.2.1 commentTwo (by decide)⟩

/-! ## C20 -/

/-- C20 as stated fails: Bob, the author of the live comment `commentOne` of
`threadStore`, updates it with the body `" hi "`, which passes validation. The
request is answered 200, but the stored `content` is `"hi"`, not the body. -/
theorem updateComment_content_counterexample :
    contentAccepted " hi " = true ∧ contentStorable " hi " = true ∧
    threadStore.comments commentOne = some liveComment ∧ liveComment.author = bob ∧
    liveComment.isDeleted = false ∧
    (updateComment threadStore commentOne.toString " hi " bob 5).1.status = 200 ∧
    (updateComment threadStore commentOne.toString " hi " bob 5).2.comments commentOne
      = some { liveComment with content := "hi", isEdited := true, editedAt := some 5 } ∧
    "hi" ≠ " hi " := by
  decide

/-- C20 (amended): `updateComment` guards. For a body that passes the request
validation and is storable (not empty after trimming, at most 1000 code units),
the update of the comment with id `cid` by actor `a` is answered 200 exactly
when the comment exists, `a` is its author and it is not deleted; on success the
stored `content` is the body with leading and trailing white space removed and
`isEdited` is true; a non-author gets 403, the author of a deleted comment gets
400, and whenever the answer is not 200 the store is unchanged. -/
theorem updateComment_guards (db : Store) (id body : String) (cid a : ObjectId) (now : Nat)
    (hc : castObjectId id = some cid) (hb : contentAccepted body = true)
    (hs : contentStorable body = true) :
    ((updateComment db id body a now).1.status = 200 ↔
      ∃ c, db.comments cid = some c ∧ a = c.author ∧ c.isDeleted = false) ∧
    (∀ c, db.comments cid = some c → a = c.author → c.isDeleted = false →
      (updateComment db id body a now).2.comments cid
          = some { c with content := jsTrim body, isEdited := true, editedAt := some now } ∧
      (∀ i, i ≠ cid → (updateComment db id body a now).2.comments i = db.comments i)) ∧
    (∀ c, db.comments cid = some c → a ≠ c.author →
      (updateComment db id body a now).1.status = 403 ∧
      (updateComment db id body a now).2 = db) ∧
    (∀ c, db.comments cid = some c → a = c.author → c.isDeleted = true →
      (updateComment db id body a now).1.status = 400 ∧
      (updateComment db id body a now).2 = db) ∧
    (db.comments cid = none →
      (updateComment db id body a now).1.status = 404 ∧
      (updateComment db id body a now).2 = db) ∧
    ((updateComment db id body a now).1.status ≠ 200 →
      (updateComment db id body a now).2 = db) := by
  have hvalid : ∀ (au po : ObjectId) (pc : Option ObjectId) (re : List ObjectId)
      (li : List Like) (lc : Int) (ie : Bool) (ea : Option Nat) (de : Bool),
      Comment.contentValid (Comment.mk (jsTrim body) au po pc re li lc ie ea de) = true :=
    fun _ _ _ _ _ _ _ _ _ => hs
  cases hcom : db.comments cid with
  | none =>
    have hr : updateComment db id body a now
        = ({ status := 404, success := false, message := "Comment not found", data := none },
           db) := by
      simp [updateComment, hb, hc, hcom]
    rw [hr]
    simp
  | some c =>
    by_cases hau : a = c.author
    · cases hdel : c.isDeleted
      · have hst : (updateComment db id body a now).1.status = 200 := by
          simp [updateComment, hb, hc, hcom, hau, hdel, Comment.saveValidated,
            Comment.setContent, hvalid]
        have hcm : (updateComment db id body a now).2.comments
            = (fun i => if i = cid then
                some { c with content := jsTrim body, isEdited := true, editedAt := some now }
              else db.comments i) := by
          funext i
          simp [updateComment, hb, hc, hcom, hau, hdel, Comment.saveValidated,
            Comment.setContent, hvalid, Comment.save]
        refine ⟨⟨fun _ => ⟨c, rfl, hau, hdel⟩, fun _ => hst⟩, ?_, ?_, ?_, ?_, ?_⟩
        · intro c1 e _ _
          cases e
          refine ⟨by rw [hcm]; simp, ?_⟩
          intro i hi
          rw [hcm]
          simp [hi]
        · intro c1 e hne
          cases e
          exact absurd hau hne
        · intro c1 e _ hd
          cases e
          rw [hdel] at hd
          exact Bool.noConfusion hd
        · intro e
          exact Option.noConfusion e
        · intro hne
          exact absurd hst hne
      · have hr : updateComment db id body a now
            = ({ status := 400, success := false, message := "Cannot update deleted comment",
                 data := none }, db) := by
          simp [updateComment, hb, hc, hcom, hau, hdel]
        rw [hr]
        refine ⟨⟨fun h => by simp at h, ?_⟩, ?_, ?_, ?_, ?_, fun _ => rfl⟩
        · rintro ⟨c1, e, _, hd⟩
          cases e
          rw [hdel] at hd
          exact Bool.noConfusion hd
        · intro c1 e _ hd
          cases e
          rw [hdel] at hd
          exact Bool.noConfusion hd
        · intro c1 e hne
          cases e
          exact absurd hau hne
        · intro _ _ _ _
          exact ⟨rfl, rfl⟩
        · intro e
          exact Option.noConfusion e
    · have h1 : c.author.toString ≠ a.toString :=
        fun e => hau (ObjectId.toString_injective e).symm
      have hr : updateComment db id body a now
          = ({ status := 403, success := false,
               message := "Not authorized to update this comment", data := none }, db) := by
        simp [updateComment, hb, hc, hcom, h1]
      rw [hr]
      refine ⟨⟨fun h => by simp at h, ?_⟩, ?_, ?_, ?_, ?_, fun _ => rfl⟩
      · rintro ⟨c1, e, hauth, _⟩
        cases e
        exact absurd hauth hau
      · intro c1 e hauth _
        cases e
        exact absurd hauth hau
      · intro _ _ _
        exact ⟨rfl, rfl⟩
      · intro c1 e hauth _
        cases e
        exact absurd hauth hau
      · intro e
        exact Option.noConfusion e

/-- Bob updates his live comment with the body `" hi "`; Alice is refused. -/
theorem updateComment_guards_witness :
    castObjectId commentOne.toString = some commentOne ∧ contentAccepted " hi " = true ∧
    contentStorable " hi " = true ∧ threadStore.comments commentOne = some liveComment ∧
    (updateComment threadStore commentOne.toString " hi " bob 5).1.status = 200 ∧
    (updateComment threadStore commentOne.toString " hi " bob 5).2.comments commentOne
      = some { liveComment with content := jsTrim " hi ", isEdited := true,
                                editedAt := some 5 } ∧
    (updateComment threadStore commentOne.toString " hi " alice 5).1.status = 403 ∧
    (updateComment threadStore commentOne.toString " hi " alice 5).2 = threadStore := by
  have hb := updateComment_guards threadStore commentOne.toString " hi " commentOne bob 5
    (by decide) (by decide) (by decide)
  have ha := updateComment_guards threadStore commentOne.toString " hi " commentOne alice 5
    (by decide) (by decide) (by decide)
  exact ⟨by decide, by decide, by decide, by decide,
    hb.1.2 ⟨liveComment, by decide, by decide, by decide⟩,
    (hb.2.1 liveComment (by decide) (by decide) (by decide)).1,
    (ha.2.2.1 liveComment (by decide) (by decide)).1,
    (ha.2.2.1 liveComment (by decide) (by decide)).2⟩

/-! ## Likes: the list operations of the two models -/

theorem filter_user_eq (likes : List Like) (u : ObjectId) :
    likes.filter (fun like => like.user.toString != u.toString)
      = likes.filter (fun like => decide (like.user ≠ u)) := by
  apply List.filter_congr
  intro l _
  by_cases h : l.user = u
  · simp [h]
  · have h1 : l.user.toString ≠ u.toString := fun e => h (ObjectId.toString_injective e)
    simp [h, h1]

theorem comment_isLikedBy_iff (c : Comment) (u : ObjectId) :
    c.isLikedBy u = true ↔ u ∈ likers c.likes :=
  any_user_eq_iff c.likes u

theorem comment_likers_removeLike (c : Comment) (u : ObjectId) :
    likers (c.removeLike u).likes = (likers c.likes).filter (fun v => v != u) :=
  likers_filter c.likes u

theorem comment_likers_addLike (c : Comment) (u : ObjectId) (now : Nat)
    (h : c.isLikedBy u = false) :
    likers (c.addLike u now).likes = likers c.likes ++ [u] := by
  simp [Comment.addLike, h, likers]

theorem post_addLike_present (p : Post) (u : ObjectId) (now : Nat) (h : u ∈ likers p.likes) :
    p.addLike u now = p := by
  simp [Post.addLike, (Post.isLikedBy_iff p u).2 h]

theorem comment_addLike_present (c : Comment) (u : ObjectId) (now : Nat)
    (h : u ∈ likers c.likes) : c.addLike u now = c := by
  simp [Comment.addLike, (comment_isLikedBy_iff c u).2 h]

theorem post_addLike_nodup (p : Post) (u : ObjectId) (now : Nat)
    (hn : (likers p.likes).Nodup) : (likers (p.addLike u now).likes).Nodup := by
  by_cases h : u ∈ likers p.likes
  · rw [post_addLike_present p u now h]
    exact hn
  · have hl : p.isLikedBy u = false := by
      cases hb : p.isLikedBy u
      · rfl
      · exact absurd ((Post.isLikedBy_iff p u).1 hb) h
    rw [Post.likers_addLike p u now hl]
    exact List.Nodup.append hn (List.nodup_singleton u) (by simpa using h)

theorem comment_addLike_nodup (c : Comment) (u : ObjectId) (now : Nat)
    (hn : (likers c.likes).Nodup) : (likers (c.addLike u now).likes).Nodup := by
  by_cases h : u ∈ likers c.likes
  · rw [comment_addLike_present c u now h]
    exact hn
  · have hl : c.isLikedBy u = false := by
      cases hb : c.isLikedBy u
      · rfl
      · exact absurd ((comment_isLikedBy_iff c u).1 hb) h
    rw [comment_likers_addLike c u now hl]
    exact List.Nodup.append hn (List.nodup_singleton u) (by simpa using h)

theorem post_removeLike_nodup (p : Post) (u : ObjectId)
    (hn : (likers p.likes).Nodup) : (likers (p.removeLike u).likes).Nodup := by
  rw [Post.likers_removeLike]
  exact hn.filter _

theorem comment_removeLike_nodup (c : Comment) (u : ObjectId)
    (hn : (likers c.likes).Nodup) : (likers (c.removeLike u).likes).Nodup := by
  rw [comment_likers_removeLike]
  exact hn.filter _

/-- The store and the answer of a like toggle on a live comment, through either
comment-like handler. -/
theorem toggleCommentLike_live (db : Store) (s : String) (cid : ObjectId) (comment : Comment)
    (u : ObjectId) (now : Nat) (hc : castObjectId s = some cid)
    (hp : db.comments cid = some comment) (hd : comment.isDeleted = false) :
    (toggleCommentLike db s u now).1.status = 200 ∧
    (toggleCommentLike db s u now).2.comments cid
      = some (if comment.isLikedBy u then comment.removeLike u else comment.addLike u now) ∧
    commentsLike db s u now = toggleCommentLike db s u now := by
  refine ⟨?_, ?_, rfl⟩
  · unfold toggleCommentLike
    cases hl : comment.isLikedBy u <;> simp [hc, hp, hd, hl]
  · unfold toggleCommentLike
    cases hl : comment.isLikedBy u <;> simp [hc, hp, hd, hl, Comment.save]

/-! ## C21 -/

/-- C21: unique likers invariant. If the users of a post's `likes` list and of a
comment's `likes` list are pairwise distinct, then they are still pairwise
distinct after `addLike(u)`, after `removeLike(u)` and after the like toggle the
handlers store (remove if `u` likes it, add otherwise), for any user `u`; and
`addLike(u)` on a list that already contains `u` leaves the document, hence
`likes` and `likesCount`, unchanged. -/
theorem likers_stay_distinct (p : Post) (c : Comment) (u : ObjectId) (now : Nat)
    (hp : (likers p.likes).Nodup) (hc : (likers c.likes).Nodup) :
    ((likers (p.addLike u now).likes).Nodup ∧ (likers (p.removeLike u).likes).Nodup ∧
      (likers (if p.isLikedBy u then p.removeLike u else p.addLike u now).likes).Nodup ∧
      (u ∈ likers p.likes →
        (p.addLike u now).likes = p.likes ∧ (p.addLike u now).likesCount = p.likesCount)) ∧
    ((likers (c.addLike u now).likes).Nodup ∧ (likers (c.removeLike u).likes).Nodup ∧
      (likers (if c.isLikedBy u then c.removeLike u else c.addLike u now).likes).Nodup ∧
      (u ∈ likers c.likes →
        (c.addLike u now).likes = c.likes ∧ (c.addLike u now).likesCount = c.likesCount)) := by
  have p1 := post_addLike_nodup p u now hp
  have p2 := post_removeLike_nodup p u hp
  have c1 := comment_addLike_nodup c u now hc
  have c2 := comment_removeLike_nodup c u hc
  refine ⟨⟨p1, p2, ?_, ?_⟩, ⟨c1, c2, ?_, ?_⟩⟩
  · cases p.isLikedBy u
    · simpa using p1
    · simpa using p2
  · intro h
    rw [post_addLike_present p u now h]
    exact ⟨rfl, rfl⟩
  · cases c.isLikedBy u
    · simpa using c1
    · simpa using c2
  · intro h
    rw [comment_addLike_present c u now h]
    exact ⟨rfl, rfl⟩

/-- The post `likedPost` and the comment `driftedComment`, both liked by Alice
only: a second `addLike` of Alice changes nothing, and the lists stay distinct. -/
theorem likers_stay_distinct_witness :
    (likers likedPost.likes).Nodup ∧ (likers driftedComment.likes).Nodup ∧
    alice ∈ likers likedPost.likes ∧ alice ∈ likers driftedComment.likes ∧
    (likers (likedPost.addLike alice 9).likes).Nodup ∧
    (likedPost.addLike alice 9).likes = likedPost.likes ∧
    (likedPost.addLike alice 9).likesCount = likedPost.likesCount ∧
    (likers (driftedComment.removeLike alice).likes).Nodup ∧
    (driftedComment.addLike alice 9).likes = driftedComment.likes := by
  have h := likers_stay_distinct likedPost driftedComment alice 9 (by decide) (by decide)
  exact ⟨by decide, by decide, by decide, by decide, h.1.1, (h.1.2.2.2 (by decide)).1,
    (h.1.2.2.2 (by decide)).2, h.2.2.1, (h.2.2.2.2 (by decide)).1⟩

/-! ## C27 -/

/-- C27: removal is by identity and order-preserving. For every post, every
comment and every user `u`, `removeLike(u)` leaves in `likes` exactly the
entries whose user differs from `u`: the result is the filtered list, a sublist
of the old one (so the kept entries stand in their original relative order,
each with its timestamp), an entry is in the result exactly when it was in the
list and is not of `u`, and `likesCount` becomes the length of the result. -/
theorem removeLike_by_identity (p : Post) (c : Comment) (u : ObjectId) :
    ((p.removeLike u).likes = p.likes.filter (fun like => decide (like.user ≠ u)) ∧
      List.Sublist (p.removeLike u).likes p.likes ∧
      (∀ like, like ∈ (p.removeLike u).likes ↔ like ∈ p.likes ∧ like.user ≠ u) ∧
      (p.removeLike u).likesCount = ((p.likes.filter (fun like => decide (like.user ≠ u))).length
        : Int)) ∧
    ((c.removeLike u).likes = c.likes.filter (fun like => decide (like.user ≠ u)) ∧
      List.Sublist (c.removeLike u).likes c.likes ∧
      (∀ like, like ∈ (c.removeLike u).likes ↔ like ∈ c.likes ∧ like.user ≠ u) ∧
      (c.removeLike u).likesCount = ((c.likes.filter (fun like => decide (like.user ≠ u))).length
        : Int)) := by
  have hp : (p.removeLike u).likes = p.likes.filter (fun like => decide (like.user ≠ u)) :=
    filter_user_eq p.likes u
  have hc : (c.removeLike u).likes = c.likes.filter (fun like => decide (like.user ≠ u)) :=
    filter_user_eq c.likes u
  refine ⟨⟨hp, ?_, ?_, ?_⟩, ⟨hc, ?_, ?_, ?_⟩⟩
  · rw [hp]
    exact List.filter_sublist _
  · intro like
    rw [hp]
    simp
  · rw [← hp]
    rfl
  · rw [hc]
    exact List.filter_sublist _
  · intro like
    rw [hc]
    simp
  · rw [← hc]
    rfl

/-! ## Follows: every successful toggle, for any spelling of the target id -/

/-- Everything a follow request answered with 200 has read and written, for
any route parameter: the parameter is not the actor's canonical string, it
denotes a stored user `t`, the actor is stored, the answer says `isFollowing`
is the negation of the `includes` test, and every user record is the old one
with `t` added to (or pulled from) the actor's `following`, the actor added to
(or pulled from) the `followers` of `t`, and the counters of the two set to the
array lengths read before the call. -/
theorem toggleFollow_success (db : Store) (s : String) (a : ObjectId)
    (h : (toggleFollow db s a).1.status = 200) :
    ∃ t ut ua, s ≠ a.toString ∧ castObjectId s = some t ∧ db.users t = some ut ∧
      db.users a = some ua ∧
      (toggleFollow db s a).1.data.map FollowData.isFollowing
        = some (!includes ua.following s) ∧
      (toggleFollow db s a).2.posts = db.posts ∧
      (toggleFollow db s a).2.comments = db.comments ∧
      ∀ i, (toggleFollow db s a).2.users i
        = (db.users i).map (fun u =>
            { u with
              following := if i = a then
                  (if includes ua.following s then pull u.following t
                   else addToSet u.following t)
                else u.following
              followers := if i = t then
                  (if includes ua.following s then pull u.followers a
                   else addToSet u.followers a)
                else u.followers
              followersCount := if i = t then (ut.followers.length : Int)
                else if i = a then (ua.followers.length : Int) else u.followersCount
              followingCount := if i = t then (ut.following.length : Int)
                else if i = a then (ua.following.length : Int) else u.followingCount }) := by
  by_cases hs : s = a.toString
  · simp [toggleFollow, hs] at h
  cases hc : castObjectId s with
  | none => simp [toggleFollow, hs, hc, serverError] at h
  | some t =>
    cases ht : db.users t with
    | none => simp [toggleFollow, hs, hc, ht] at h
    | some ut =>
      cases ha : db.users a with
      | none => simp [toggleFollow, hs, hc, ht, ha, serverError] at h
      | some ua =>
        refine ⟨t, ut, ua, hs, rfl, ht, rfl, ?_, ?_, ?_, ?_⟩
        · cases hi : includes ua.following s <;> simp [toggleFollow, hs, hc, ht, ha, hi]
        · cases hi : includes ua.following s <;>
            simp [toggleFollow, hs, hc, ht, ha, hi, User.updateFollowCounts,
              User.findByIdAndUpdate]
        · cases hi : includes ua.following s <;>
            simp [toggleFollow, hs, hc, ht, ha, hi, User.updateFollowCounts,
              User.findByIdAndUpdate]
        · intro i
          by_cases hia : i = a
          · subst hia
            by_cases hit : i = t
            · subst hit
              have hu : ua = ut := Option.some.inj (ha.symm.trans ht)
              subst hu
              cases hi : includes ua.following s <;>
                simp [toggleFollow, hs, hc, ht, hi, User.updateFollowCounts,
                  User.findByIdAndUpdate]
            · cases hi : includes ua.following s <;>
                simp [toggleFollow, hs, hc, ht, ha, hi, User.updateFollowCounts,
                  User.findByIdAndUpdate, hit]
          · by_cases hit : i = t
            · subst hit
              cases hi : includes ua.following s <;>
                simp [toggleFollow, hs, hc, ht, ha, hi, User.updateFollowCounts,
                  User.findByIdAndUpdate, hia]
            · cases hu : db.users i <;> cases hi : includes ua.following s <;>
                simp [toggleFollow, hs, hc, ht, ha, hi, User.updateFollowCounts,
                  User.findByIdAndUpdate, hia, hit, hu]

theorem toggleFollow_failure (db : Store) (s : String) (a : ObjectId)
    (h : (toggleFollow db s a).1.status ≠ 200) : (toggleFollow db s a).2 = db := by
  by_cases hs : s = a.toString
  · simp [toggleFollow, hs]
  cases hc : castObjectId s with
  | none => simp [toggleFollow, hs, hc]
  | some t =>
    cases ht : db.users t with
    | none => simp [toggleFollow, hs, hc, ht]
    | some ut =>
      cases ha : db.users a with
      | none => simp [toggleFollow, hs, hc, ht, ha]
      | some ua =>
        exfalso
        apply h
        cases hi : includes ua.following s <;> simp [toggleFollow, hs, hc, ht, ha, hi]

theorem mem_addToSet (xs : List ObjectId) (v w : ObjectId) :
    w ∈ addToSet xs v ↔ w ∈ xs ∨ w = v := by
  unfold addToSet
  split
  · constructor
    · exact Or.inl
    · rintro (h | h)
      · exact h
      · subst h
        assumption
  · simp

theorem mem_pull (xs : List ObjectId) (v w : ObjectId) :
    w ∈ pull xs v ↔ w ∈ xs ∧ w ≠ v := by
  simp [pull]

theorem nodup_addToSet (xs : List ObjectId) (v : ObjectId) (h : xs.Nodup) :
    (addToSet xs v).Nodup := by
  unfold addToSet
  split
  · exact h
  · exact List.Nodup.append h (List.nodup_singleton v) (by simpa using ‹v ∉ xs›)

theorem nodup_pull (xs : List ObjectId) (v : ObjectId) (h : xs.Nodup) : (pull xs v).Nodup :=
  h.filter _

theorem count_addToSet_self (xs : List ObjectId) (v : ObjectId) (h : xs.Nodup) :
    (addToSet xs v).count v = 1 :=
  List.count_eq_one_of_mem (nodup_addToSet xs v h) ((mem_addToSet xs v v).2 (Or.inr rfl))

/-- When `includes` finds the route parameter in an array of ids, the
parameter is the canonical string of an element, and casts to that element. -/
theorem includes_true (xs : List ObjectId) (s : String) (t : ObjectId)
    (hc : castObjectId s = some t) (h : includes xs s = true) : t ∈ xs ∧ s = t.toString := by
  simp only [includes, List.any_eq_true, beq_iff_eq] at h
  obtain ⟨x, hx, e⟩ := h
  have : castObjectId s = some x := by rw [← e, castObjectId_toString]
  have hxt : x = t := Option.some.inj (this.symm.trans hc)
  subst hxt
  exact ⟨hx, e.symm⟩

/-- One follow request keeps every `following` and `followers` list duplicate-free. -/
theorem toggleFollow_setLike (db : Store) (s : String) (a : ObjectId) (h : FollowsSetLike db) :
    FollowsSetLike (toggleFollow db s a).2 := by
  by_cases hst : (toggleFollow db s a).1.status = 200
  · obtain ⟨t, ut, ua, -, -, -, -, -, -, -, husers⟩ := toggleFollow_success db s a hst
    intro i u hu
    rw [husers i] at hu
    cases hdb : db.users i with
    | none => simp [hdb] at hu
    | some u0 =>
      obtain ⟨h1, h2⟩ := h i u0 hdb
      simp only [hdb, Option.map_some', Option.some.injEq] at hu
      subst hu
      constructor
      · show (if i = a then _ else _ : List ObjectId).Nodup
        split
        · split
          · exact nodup_pull _ _ h1
          · exact nodup_addToSet _ _ h1
        · exact h1
      · show (if i = t then _ else _ : List ObjectId).Nodup
        split
        · split
          · exact nodup_pull _ _ h2
          · exact nodup_addToSet _ _ h2
        · exact h2
  · rw [toggleFollow_failure db s a hst]
    exact h

theorem runFollows_setLike (rs : List FollowRequest) (db : Store) (h : FollowsSetLike db) :
    FollowsSetLike (runFollows db rs) := by
  induction rs generalizing db with
  | nil => exact h
  | cons r rs ih => exact ih _ (toggleFollow_setLike db r.targetUserId r.currentUserId h)

/-! ## C22 -/

/-- C22: the follow insert is set-like and never errors. In a store whose
`following` / `followers` lists hold no id twice, for distinct stored users
(actor, target) with target not in `actor.following`: `toggleFollow(actor,
target)` is answered 200 with `isFollowing = true`; afterwards target occurs
exactly once in the stored `actor.following` and actor occurs exactly once in
the stored `target.followers`; and after any sequence of follow requests (by
anyone, for any target, whatever they are answered) still no list holds an id
twice. -/
theorem follow_insert_set_like (db : Store) (a b : ObjectId) (ua ub : User)
    (rs : List FollowRequest) (hset : FollowsSetLike db) (hne : a ≠ b)
    (ha : db.users a = some ua) (hb : db.users b = some ub) (hnf : b ∉ ua.following) :
    (toggleFollow db b.toString a).1.status = 200 ∧
    (toggleFollow db b.toString a).1.data.map FollowData.isFollowing = some true ∧
    (∃ ua1 ub1, (toggleFollow db b.toString a).2.users a = some ua1 ∧
      (toggleFollow db b.toString a).2.users b = some ub1 ∧
      ua1.following.count b = 1 ∧ ub1.followers.count a = 1) ∧
    FollowsSetLike (runFollows db rs) := by
  obtain ⟨r1, r2, r3, -⟩ := toggleFollow_follow db a b ua ub hne ha hb hnf
  refine ⟨by rw [r1], by rw [r1]; rfl, ⟨_, _, r2, r3, ?_, ?_⟩, runFollows_setLike rs db hset⟩
  · exact count_addToSet_self ua.following b (hset a ua ha).1
  · exact count_addToSet_self ub.followers a (hset b ub hb).2

theorem twoUsers_setLike : FollowsSetLike twoUsers := by
  intro i u hu
  simp only [twoUsers] at hu
  split_ifs at hu <;> cases hu <;> exact ⟨List.nodup_nil, List.nodup_nil⟩

/-- Alice follows Bob in `twoUsers`; the sequence replays the request with both
spellings of Bob's id. -/
theorem follow_insert_set_like_witness :
    FollowsSetLike twoUsers ∧ alice ≠ bob ∧ twoUsers.users alice = some freshUser ∧
    twoUsers.users bob = some freshUser ∧ bob ∉ freshUser.following ∧
    (toggleFollow twoUsers bob.toString alice).1.status = 200 ∧
    (∃ ua1 ub1, (toggleFollow twoUsers bob.toString alice).2.users alice = some ua1 ∧
      (toggleFollow twoUsers bob.toString alice).2.users bob = some ub1 ∧
      ua1.following.count bob = 1 ∧ ub1.followers.count alice = 1) ∧
    FollowsSetLike (runFollows twoUsers
      [{ targetUserId := bob.toString, currentUserId := alice },
       { targetUserId := "00000000000000000000000B", currentUserId := alice }]) := by
  have h := follow_insert_set_like twoUsers alice bob freshUser freshUser
    [{ targetUserId := bob.toString, currentUserId := alice },
     { targetUserId := "00000000000000000000000B", currentUserId := alice }]
    twoUsers_setLike (by decide) (by decide) (by decide) (by decide)
  exact ⟨twoUsers_setLike, by decide, by decide, by decide, by decide, h.1, h.2.2.1, h.2.2.2⟩

/-! ## C23 -/

/-- C23: `toggleFollow` on a missing target. For every actor and every route
parameter that denotes an id other than the actor's under which no user is
stored, the request is answered 404 `User not found` and the store is returned
unchanged: the actor's `following` and `followingCount` and every other user
record are as before. -/
theorem toggleFollow_missing_target (db : Store) (s : String) (t a : ObjectId)
    (hc : castObjectId s = some t) (hne : t ≠ a) (hmiss : db.users t = none) :
    (toggleFollow db s a).1
      = { status := 404, success := false, message := "User not found", data := none } ∧
    (toggleFollow db s a).2 = db ∧
    (toggleFollow db s a).2.users a = db.users a := by
  have hs : s ≠ a.toString := by
    intro e
    rw [e, castObjectId_toString] at hc
    exact hne (Option.some.inj hc).symm
  simp [toggleFollow, hs, hc, hmiss]

/-- Alice tries to follow the id `postOne`, under which no user is stored. -/
theorem toggleFollow_missing_target_witness :
    castObjectId postOne.toString = some postOne ∧ postOne ≠ alice ∧
    twoUsers.users postOne = none ∧
    (toggleFollow twoUsers postOne.toString alice).1
      = { status := 404, success := false, message := "User not found", data := none } ∧
    (toggleFollow twoUsers postOne.toString alice).2 = twoUsers :=
  ⟨by decide, by decide, by decide,
    (toggleFollow_missing_target twoUsers postOne.toString postOne alice (by decide) (by decide)
      (by decide)).1,
    (toggleFollow_missing_target twoUsers postOne.toString postOne alice (by decide) (by decide)
      (by decide)).2.1⟩

/-! ## C29 -/

/-- C29: follow symmetry is established by every toggle. For every store
(also one where `actor.following` and `target.followers` disagree), every route
parameter and every actor, if the request is answered 200 then the parameter
denotes a stored user `t`, and afterwards `t` is in the stored
`actor.following` exactly when the actor is in the stored `t.followers`, and
both hold exactly when the returned `isFollowing` is true. -/
theorem toggleFollow_symmetry (db : Store) (s : String) (a : ObjectId)
    (h : (toggleFollow db s a).1.status = 200) :
    ∃ t ua1 ut1 data, castObjectId s = some t ∧
      (toggleFollow db s a).2.users a = some ua1 ∧
      (toggleFollow db s a).2.users t = some ut1 ∧
      (toggleFollow db s a).1.data = some data ∧
      (t ∈ ua1.following ↔ a ∈ ut1.followers) ∧
      (t ∈ ua1.following ↔ data.isFollowing = true) ∧
      (a ∈ ut1.followers ↔ data.isFollowing = true) := by
  obtain ⟨t, ut, ua, -, hc, ht, ha, hdata, -, -, husers⟩ := toggleFollow_success db s a h
  cases hd : (toggleFollow db s a).1.data with
  | none => simp [hd] at hdata
  | some data =>
    have hflag : data.isFollowing = !includes ua.following s := by
      simpa [hd] using hdata
    have hA : t ∈ (if includes ua.following s then pull ua.following t
        else addToSet ua.following t) ↔ data.isFollowing = true := by
      rw [hflag]
      cases hi : includes ua.following s
      · simp [mem_addToSet]
      · simp [mem_pull]
    have hT : a ∈ (if includes ua.following s then pull ut.followers a
        else addToSet ut.followers a) ↔ data.isFollowing = true := by
      rw [hflag]
      cases hi : includes ua.following s
      · simp [mem_addToSet]
      · simp [mem_pull]
    have h1 : ∃ ua1, (toggleFollow db s a).2.users a = some ua1 ∧
        ua1.following = (if includes ua.following s then pull ua.following t
          else addToSet ua.following t) := by
      rw [husers a, ha]
      exact ⟨_, rfl, by simp⟩
    have h2 : ∃ ut1, (toggleFollow db s a).2.users t = some ut1 ∧
        ut1.followers = (if includes ua.following s then pull ut.followers a
          else addToSet ut.followers a) := by
      rw [husers t, ht]
      exact ⟨_, rfl, by simp⟩
    obtain ⟨ua1, e1, f1⟩ := h1
    obtain ⟨ut1, e2, f2⟩ := h2
    refine ⟨t, ua1, ut1, data, hc, e1, e2, rfl, ?_, ?_, ?_⟩
    · rw [f1, f2]
      exact hA.trans hT.symm
    · rw [f1]
      exact hA
    · rw [f2]
      exact hT

/-- In `halfFollowed` Alice's `following` holds Bob while Bob's `followers` is
empty; after Alice's toggle both sides agree with the returned flag. -/
theorem toggleFollow_symmetry_witness :
    (toggleFollow halfFollowed bob.toString alice).1.status = 200 ∧
    ∃ t ua1 ut1 data, castObjectId bob.toString = some t ∧
      (toggleFollow halfFollowed bob.toString alice).2.users alice = some ua1 ∧
      (toggleFollow halfFollowed bob.toString alice).2.users t = some ut1 ∧
      (toggleFollow halfFollowed bob.toString alice).1.data = some data ∧
      (t ∈ ua1.following ↔ alice ∈ ut1.followers) ∧
      (t ∈ ua1.following ↔ data.isFollowing = true) ∧
      (alice ∈ ut1.followers ↔ data.isFollowing = true) :=
  ⟨by decide, toggleFollow_symmetry halfFollowed bob.toString alice (by decide)⟩

/-! ## C30 -/

theorem count_addToSet_le_one (xs : List ObjectId) (v : ObjectId) (h : xs.count v ≤ 1) :
    (addToSet xs v).count v ≤ 1 := by
  unfold addToSet
  split
  · exact h
  · rename_i hv
    simp [List.count_append, List.count_eq_zero_of_not_mem hv]

theorem count_pull_self (xs : List ObjectId) (v : ObjectId) : (pull xs v).count v = 0 :=
  List.count_eq_zero_of_not_mem (fun h => ((mem_pull xs v v).1 h).2 rfl)

/-- C30: `likedPosts` mirrors `post.likes` after a toggle. For every published
post P, every stored user `u` and every prior state (also one where
`u.likedPosts` and `P.likes` disagree), `togglePostLike(u, P)` is answered 200
and afterwards P is in the stored `u.likedPosts` exactly when `u` is in the
stored `P.likes`; P occurs at most once in `u.likedPosts` if it did before; and
the record of every other user is unchanged. -/
theorem likedPosts_mirror (db : Store) (s : String) (pid u : ObjectId) (post : Post)
    (usr : User) (now : Nat) (hc : castObjectId s = some pid) (hp : db.posts pid = some post)
    (hs : post.status = PostStatus.published) (hu : db.users u = some usr) :
    (togglePostLike db s u now).1.status = 200 ∧
    (∃ post1 usr1, (togglePostLike db s u now).2.posts pid = some post1 ∧
      (togglePostLike db s u now).2.users u = some usr1 ∧
      (pid ∈ usr1.likedPosts ↔ u ∈ likers post1.likes) ∧
      (usr.likedPosts.count pid ≤ 1 → usr1.likedPosts.count pid ≤ 1)) ∧
    (∀ v, v ≠ u → (togglePostLike db s u now).2.users v = db.users v) := by
  obtain ⟨h200, hpost, -⟩ := togglePostLike_published db s pid post u now hc hp hs
  refine ⟨h200, ?_, ?_⟩
  · cases hl : post.isLikedBy u
    · have hL := Post.likers_addLike post u now hl
      refine ⟨post.addLike u now, { usr with likedPosts := addToSet usr.likedPosts pid }, ?_, ?_,
        ?_, ?_⟩
      · rw [hpost, hl]
        rfl
      · simp [togglePostLike, hc, hp, hs, hl, Post.save, User.findByIdAndUpdate, hu]
      · simp [hL, mem_addToSet]
      · exact count_addToSet_le_one usr.likedPosts pid
    · have hL := Post.likers_removeLike post u
      refine ⟨post.removeLike u, { usr with likedPosts := pull usr.likedPosts pid }, ?_, ?_,
        ?_, ?_⟩
      · rw [hpost, hl]
        rfl
      · simp [togglePostLike, hc, hp, hs, hl, Post.save, User.findByIdAndUpdate, hu]
      · simp [hL, mem_pull]
      · intro _
        show (pull usr.likedPosts pid).count pid ≤ 1
        rw [count_pull_self]
        exact Nat.zero_le 1
  · intro v hv
    cases hl : post.isLikedBy u <;>
      simp [togglePostLike, hc, hp, hs, hl, Post.save, User.findByIdAndUpdate, hv]

/-- Bob, whose `likedPosts` is empty, likes `postOne` in `likedStore`; Alice's
record is not touched. -/
theorem likedPosts_mirror_witness :
    castObjectId postOne.toString = some postOne ∧ likedStore.posts postOne = some likedPost ∧
    likedPost.status = PostStatus.published ∧ likedStore.users bob = some freshUser ∧
    (togglePostLike likedStore postOne.toString bob 9).1.status = 200 ∧
    (∃ post1 usr1, (togglePostLike likedStore postOne.toString bob 9).2.posts postOne = some post1 ∧
      (togglePostLike likedStore postOne.toString bob 9).2.users bob = some usr1 ∧
      (postOne ∈ usr1.likedPosts ↔ bob ∈ likers post1.likes) ∧
      (freshUser.likedPosts.count postOne ≤ 1 → usr1.likedPosts.count postOne ≤ 1)) ∧
    (togglePostLike likedStore postOne.toString bob 9).2.users alice = likedStore.users alice := by
  have h := likedPosts_mirror likedStore postOne.toString postOne bob likedPost freshUser 9
    (by decide) (by decide) (by decide) (by decide)
  exact ⟨by decide, by decide, by decide, by decide, h.1, h.2.1, h.2.2 alice (by decide)⟩

/-! ## Posts: the update handler -/

/-- The update handler never writes `publishedAt`: the test
`status === 'published' && post.status !== 'published'` is evaluated after
`post.status = status`, so it is false whenever `status` is `'published'`. -/
theorem updatePost_publishedAt (db : Store) (id : String) (title content excerpt status :
    Option String) (a pid : ObjectId) (now : Nat) (post : Post)
    (hc : castObjectId id = some pid) (hp : db.posts pid = some post) :
    ∃ post1, (updatePost db id title content excerpt status a now).2.posts pid = some post1 ∧
      post1.publishedAt = post.publishedAt := by
  unfold updatePost
  by_cases hv : updatePostAccepted title content status = true
  swap
  · exact ⟨post, by simp [hv, hp], rfl⟩
  by_cases hau : post.author.toString = a.toString
  swap
  · exact ⟨post, by simp [hv, hc, hp, hau], rfl⟩
  by_cases hst : postFieldsStorable title content excerpt = true
  swap
  · exact ⟨post, by simp [hv, hc, hp, hau, hst], rfl⟩
  cases hs : status.bind parseStatus with
  | none =>
    by_cases hpub : status = some "published"
    · subst hpub
      exact absurd hs (by decide)
    · exact ⟨post, by simp [hv, hc, hp, hau, hst, hs, hpub, Post.save], rfl⟩
  | some st =>
    by_cases hpub : status = some "published"
    · subst hpub
      have hst2 : st = PostStatus.published := by
        have : (some "published" : Option String).bind parseStatus = some PostStatus.published := by
          decide
        rw [this] at hs
        exact (Option.some.inj hs).symm
      subst hst2
      exact ⟨{ post with status := PostStatus.published },
        by simp [hv, hc, hp, hau, hst, hs, Post.save], rfl⟩
    · exact ⟨{ post with status := st },
        by simp [hv, hc, hp, hau, hst, hs, hpub, Post.save], rfl⟩

/-! ## C28 -/

/-- C28: evaluation of a publishing update. In `closedStore` the post `postOne`
is Alice's draft with `publishedAt` unset. Alice's update with
`status = 'published'` at time 42 is answered 200 and the stored status becomes
`published`, but the stored `publishedAt` is still unset, not 42. -/
theorem updatePost_publish_leaves_date_unset :
    closedStore.posts postOne = some draftPost ∧ draftPost.status = PostStatus.draft ∧
    draftPost.publishedAt = none ∧ draftPost.author = alice ∧
    (updatePost closedStore postOne.toString none none none (some "published") alice 42).1.status
      = 200 ∧
    (updatePost closedStore postOne.toString none none none (some "published") alice 42).2.posts
        postOne
      = some { draftPost with status := PostStatus.published, publishedAt := none } := by
  decide

/-! ## Posts: what a creation and a deletion write -/

/-- Everything a post creation answered with 201 has written. -/
theorem createPost_effect (db : Store) (title content : String) (excerpt status : Option String)
    (u newId : ObjectId) (now : Nat)
    (h : (createPost db title content excerpt status u newId now).1.status = 201) :
    db.posts newId = none ∧
    ∃ post, post.author = u ∧
      (createPost db title content excerpt status u newId now).2.posts
        = (fun i => if i = newId then some post else db.posts i) ∧
      (createPost db title content excerpt status u newId now).2.users
        = (fun i => if i = u then
                      (db.users i).map (fun x => { x with postsCount := x.postsCount + 1 })
                    else db.users i) ∧
      (createPost db title content excerpt status u newId now).2.comments = db.comments := by
  unfold createPost at h ⊢
  by_cases hv : createPostAccepted title content status = true
  swap
  · simp [hv] at h
  by_cases hst : postFieldsStorable (some title) (some content) excerpt = true
  swap
  · simp [hv, hst, serverError] at h
  cases hn : db.posts newId with
  | some p0 => simp [hv, hst, hn, serverError] at h
  | none =>
    refine ⟨rfl,
      { author := u, status := (parseStatus (status.getD "draft")).getD PostStatus.draft,
        publishedAt := if status.getD "draft" = "published" then some now else none,
        likes := [], likesCount := 0, commentsCount := 0 }, rfl, ?_, ?_, ?_⟩
    · simp [hv, hst, Post.save, User.findByIdAndUpdate]
    · simp [hv, hst, Post.save, User.findByIdAndUpdate]
    · simp [hv, hst, Post.save, User.findByIdAndUpdate]

/-- Everything a post deletion answered with 200 has read and written. -/
theorem deletePost_effect (db : Store) (id : String) (a : ObjectId)
    (h : (deletePost db id a).1.status = 200) :
    ∃ pid post, castObjectId id = some pid ∧ db.posts pid = some post ∧ post.author = a ∧
      (deletePost db id a).2.posts = (fun i => if i = pid then none else db.posts i) ∧
      (deletePost db id a).2.users
        = (fun i => if i = a then
                      (db.users i).map (fun x => { x with postsCount := x.postsCount - 1 })
                    else db.users i) ∧
      (deletePost db id a).2.comments = db.comments := by
  cases hc : castObjectId id with
  | none => simp [deletePost, hc, serverError] at h
  | some pid =>
    cases hp : db.posts pid with
    | none => simp [deletePost, hc, hp] at h
    | some post =>
      by_cases hau : post.author.toString = a.toString
      · refine ⟨pid, post, rfl, hp, ObjectId.toString_injective hau, ?_, ?_, ?_⟩
        · simp [deletePost, hc, hp, hau, User.findByIdAndUpdate]
        · simp [deletePost, hc, hp, hau, User.findByIdAndUpdate]
        · simp [deletePost, hc, hp, hau, User.findByIdAndUpdate]
      · simp [deletePost, hc, hp, hau] at h

/-- A deletion by its author of a stored post is answered 200. -/
theorem deletePost_succeeds (db : Store) (id : String) (pid a : ObjectId) (post : Post)
    (hc : castObjectId id = some pid) (hp : db.posts pid = some post) (hau : post.author = a) :
    (deletePost db id a).1.status = 200 := by
  simp [deletePost, hc, hp, hau]

/-- A deletion of a missing post, or by someone who is not the author, writes nothing. -/
theorem deletePost_refused (db : Store) (id : String) (pid a : ObjectId)
    (hc : castObjectId id = some pid)
    (h : db.posts pid = none ∨ ∃ p, db.posts pid = some p ∧ p.author ≠ a) :
    ((deletePost db id a).1.status = 404 ∨ (deletePost db id a).1.status = 403) ∧
    (deletePost db id a).2 = db := by
  rcases h with h | ⟨p, hp, hne⟩
  · simp [deletePost, hc, h]
  · have h1 : p.author.toString ≠ a.toString := fun e => hne (ObjectId.toString_injective e)
    simp [deletePost, hc, hp, h1]

/-! ## Posts: the counter of authored posts -/

theorem authoredCount_congr (db db1 : Store) (ids : Finset ObjectId) (u : ObjectId)
    (h : ∀ i ∈ ids, db1.posts i = db.posts i) :
    authoredCount db1 ids u = authoredCount db ids u := by
  unfold authoredCount
  congr 1
  apply Finset.filter_congr
  intro i hi
  simp [isAuthoredBy, h i hi]

theorem authoredCount_insert (db db1 : Store) (ids : Finset ObjectId) (u newId : ObjectId)
    (post : Post) (hnew : newId ∉ ids)
    (hposts : db1.posts = (fun i => if i = newId then some post else db.posts i)) :
    authoredCount db1 (insert newId ids) u
      = authoredCount db ids u + (if post.author = u then 1 else 0) := by
  have hcongr : authoredCount db1 ids u = authoredCount db ids u := by
    apply authoredCount_congr
    intro i hi
    have : i ≠ newId := fun e => hnew (e ▸ hi)
    simp [hposts, this]
  have hnewp : isAuthoredBy db1 u newId = decide (post.author = u) := by
    simp [isAuthoredBy, hposts]
  unfold authoredCount at hcongr ⊢
  rw [Finset.filter_insert]
  by_cases hau : post.author = u
  · have hmem : newId ∉ ids.filter (fun i => isAuthoredBy db1 u i = true) :=
      fun hm => hnew (Finset.mem_filter.1 hm).1
    simp only [hnewp, hau, decide_True, if_true]
    rw [Finset.card_insert_of_not_mem hmem, hcongr]
  · simp only [hnewp, hau, decide_False, Bool.false_eq_true, if_false]
    rw [hcongr]
    rfl

theorem authoredCount_erase (db db1 : Store) (ids : Finset ObjectId) (u pid : ObjectId)
    (post : Post) (hmem : pid ∈ ids) (hp : db.posts pid = some post)
    (hposts : db1.posts = (fun i => if i = pid then none else db.posts i)) :
    authoredCount db1 (ids.erase pid) u + (if post.author = u then 1 else 0)
      = authoredCount db ids u := by
  have hcongr : authoredCount db1 (ids.erase pid) u = authoredCount db (ids.erase pid) u := by
    apply authoredCount_congr
    intro i hi
    have : i ≠ pid := (Finset.mem_erase.1 hi).1
    simp [hposts, this]
  rw [hcongr]
  unfold authoredCount
  rw [Finset.filter_erase]
  by_cases hau : post.author = u
  · have hm : pid ∈ ids.filter (fun i => isAuthoredBy db u i = true) := by
      rw [Finset.mem_filter]
      exact ⟨hmem, by simp [isAuthoredBy, hp, hau]⟩
    simp only [hau, if_true]
    exact Finset.card_erase_add_one hm
  · have hm : pid ∉ ids.filter (fun i => isAuthoredBy db u i = true) := by
      rw [Finset.mem_filter]
      rintro ⟨-, h2⟩
      simp [isAuthoredBy, hp, hau] at h2
    simp only [hau, if_false, Nat.add_zero]
    rw [Finset.erase_eq_of_not_mem hm]

/-- One successful posts request keeps the counters in agreement with the
collection. -/
theorem postRequest_keeps_agreement (r : PostRequest) (db : Store) (ids : Finset ObjectId)
    (hidx : PostsIndexed db ids) (hagree : PostsCountAgrees db ids)
    (hs : (r.run db).1 = true) :
    ∃ ids1, PostsIndexed (r.run db).2 ids1 ∧ PostsCountAgrees (r.run db).2 ids1 := by
  cases r with
  | create title content excerpt status u newId now =>
    have h201 : (createPost db title content excerpt status u newId now).1.status = 201 := by
      simpa [PostRequest.run] using hs
    obtain ⟨hfresh, post, hauthor, hposts, husers, -⟩ :=
      createPost_effect db title content excerpt status u newId now h201
    have hnew : newId ∉ ids := fun hm => by
      have := (hidx newId).1 hm
      rw [hfresh] at this
      exact Bool.noConfusion this
    refine ⟨insert newId ids, ?_, ?_⟩
    · intro i
      simp only [PostRequest.run, hposts, Finset.mem_insert]
      by_cases hi : i = newId
      · simp [hi]
      · simp [hi, hidx i]
    · intro v usr hv
      simp only [PostRequest.run] at hv ⊢
      rw [authoredCount_insert db _ ids v newId post hnew hposts, hauthor]
      rw [husers] at hv
      by_cases hvu : v = u
      · subst hvu
        cases hdb : db.users v with
        | none => simp [hdb] at hv
        | some usr0 =>
          simp only [hdb, if_true, Option.map_some', Option.some.injEq] at hv
          subst hv
          have := hagree v usr0 hdb
          simp only [if_true]
          push_cast
          rw [← this]
      · simp only [hvu, if_false] at hv
        have := hagree v usr hv
        have hne : ¬ u = v := fun e => hvu e.symm
        simp only [hne, if_false, Nat.add_zero]
        exact this
  | delete id a =>
    have h200 : (deletePost db id a).1.status = 200 := by
      simpa [PostRequest.run] using hs
    obtain ⟨pid, post, -, hp, hauthor, hposts, husers, -⟩ := deletePost_effect db id a h200
    have hmem : pid ∈ ids := (hidx pid).2 (by simp [hp])
    refine ⟨ids.erase pid, ?_, ?_⟩
    · intro i
      simp only [PostRequest.run, hposts, Finset.mem_erase]
      by_cases hi : i = pid
      · simp [hi]
      · simp [hi, hidx i]
    · intro v usr hv
      simp only [PostRequest.run] at hv ⊢
      have hcount := authoredCount_erase db (deletePost db id a).2 ids v pid post hmem hp hposts
      rw [hauthor] at hcount
      rw [husers] at hv
      by_cases hva : v = a
      · subst hva
        cases hdb : db.users v with
        | none => simp [hdb] at hv
        | some usr0 =>
          simp only [hdb, if_true, Option.map_some', Option.some.injEq] at hv
          subst hv
          have := hagree v usr0 hdb
          simp only [if_true] at hcount
          show usr0.postsCount - 1 = _
          rw [this, ← hcount]
          push_cast
          ring
      · simp only [hva, if_false] at hv
        have := hagree v usr hv
        have hne : ¬ a = v := fun e => hva e.symm
        simp only [hne, if_false, Nat.add_zero] at hcount
        rw [hcount]
        exact this

/-! ## C25 -/

/-- C25: `postsCount` agreement. Start from a store whose posts collection has
the finite id set `ids` and in which every user's `postsCount` equals the
number of stored posts of that user. After any sequence of successful post
creations and deletions by their authors, the collection again has a finite id
set for which every user's `postsCount` equals the number of stored posts of
that user; and on the resulting store a delete attempt on a missing post or by
a non-author is not answered 200 and returns the store unchanged. -/
theorem postsCount_agreement (rs : List PostRequest) (db db1 : Store) (ids : Finset ObjectId)
    (hidx : PostsIndexed db ids) (hagree : PostsCountAgrees db ids)
    (hrun : runPosts db rs = some db1) :
    (∃ ids1, PostsIndexed db1 ids1 ∧ PostsCountAgrees db1 ids1) ∧
    (∀ id pid a, castObjectId id = some pid →
      (db1.posts pid = none ∨ ∃ p, db1.posts pid = some p ∧ p.author ≠ a) →
      (deletePost db1 id a).1.status ≠ 200 ∧ (deletePost db1 id a).2 = db1) := by
  constructor
  · induction rs generalizing db ids with
    | nil =>
      simp only [runPosts, Option.some.injEq] at hrun
      subst hrun
      exact ⟨ids, hidx, hagree⟩
    | cons r rs ih =>
      unfold runPosts at hrun
      by_cases hs : (r.run db).1 = true
      · rw [if_pos hs] at hrun
        obtain ⟨ids0, h1, h2⟩ := postRequest_keeps_agreement r db ids hidx hagree hs
        exact ih _ ids0 h1 h2 hrun
      · rw [if_neg hs] at hrun
        exact absurd hrun (by simp)
  · intro id pid a hc hcase
    obtain ⟨h1, h2⟩ := deletePost_refused db1 id pid a hc hcase
    refine ⟨?_, h2⟩
    rcases h1 with h | h <;> rw [h] <;> decide

theorem twoUsers_posts_indexed : PostsIndexed twoUsers ∅ := by
  intro i
  simp [twoUsers]

theorem twoUsers_posts_agree : PostsCountAgrees twoUsers ∅ := by
  intro u usr hu
  simp only [twoUsers] at hu
  split_ifs at hu <;> cases hu <;> rfl

/-- The three requests of `samplePostRequests` on `twoUsers`: afterwards Alice
has no post and `postsCount = 0`, Bob has one post and `postsCount = 1`, and
Alice cannot delete Bob's post. -/
theorem postsCount_agreement_witness :
    PostsIndexed twoUsers ∅ ∧ PostsCountAgrees twoUsers ∅ ∧
    (∃ db1, runPosts twoUsers samplePostRequests = some db1 ∧
      (∃ ids1, PostsIndexed db1 ids1 ∧ PostsCountAgrees db1 ids1) ∧
      db1.users alice = some freshUser ∧
      db1.users bob = some { freshUser with postsCount := 1 } ∧
      db1.posts postOne = none ∧
      (deletePost db1 postTwo.toString alice).1.status ≠ 200 ∧
      (deletePost db1 postTwo.toString alice).2 = db1) := by
  have hrun : runPosts twoUsers samplePostRequests
      = some (deletePost (createPost (createPost twoUsers "Title" "Body" none (some "published")
          alice postOne 1).2 "Other" "Text" none none bob postTwo 2).2 postOne.toString alice).2 :=
    rfl
  have h := postsCount_agreement samplePostRequests twoUsers _ ∅ twoUsers_posts_indexed
    twoUsers_posts_agree hrun
  have hp2 : (deletePost (createPost (createPost twoUsers "Title" "Body" none (some "published")
      alice postOne 1).2 "Other" "Text" none none bob postTwo 2).2 postOne.toString alice).2.posts
      postTwo = some { emptyPost with author := bob, status := PostStatus.draft,
                                      publishedAt := none } := by
    decide
  have hd := h.2 postTwo.toString postTwo alice (by decide) (Or.inr ⟨_, hp2, by decide⟩)
  exact ⟨twoUsers_posts_indexed, twoUsers_posts_agree, _, hrun, h.1, by decide, by decide,
    by decide, hd.1, hd.2⟩

/-! ## C26 -/

/-- The listing reads the comments collection only. -/
theorem listComments_of_comments (db db1 : Store) (idx : List ObjectId) (s : String)
    (p l : Option Nat) (h : db1.comments = db.comments) :
    (listComments db1 idx s p l).1 = (listComments db idx s p l).1 := by
  unfold listComments
  rw [h]
  cases castObjectId s <;> rfl

/-- C26 as stated fails: in `threadStore` Alice deletes her post `postOne`,
which has the live comment `commentOne`. Afterwards the post is gone, but the
listing for `postOne` is answered 200 and still returns `commentOne`; it is not
answered 404. -/
theorem listing_after_delete_counterexample :
    (deletePost threadStore postOne.toString alice).1.status = 200 ∧
    (deletePost threadStore postOne.toString alice).2.posts postOne = none ∧
    (listComments (deletePost threadStore postOne.toString alice).2 [commentOne]
        postOne.toString none none).1
      = { status := 200, success := true, message := "",
          data := some { comments := [{ id := commentOne, comment := liveComment }],
                         page := 1, limit := 20, total := 1, pages := 1 } } := by
  decide

/-- C26 (amended): access through a deleted post. After a post P has been
hard-deleted by its author, `createComment` with `postId = P` (a request that
passes validation) is answered 404 and writes nothing; the listing
`GET /api/comments/post/:postId` does not look the post up: it is answered 200
with exactly the answer it gave before the deletion, that is with the live
top-level comments that still reference P. -/
theorem access_after_post_delete (db : Store) (id : String) (pid a : ObjectId) (post : Post)
    (hc : castObjectId id = some pid) (hp : db.posts pid = some post)
    (hau : post.author = a) :
    (deletePost db id a).1.status = 200 ∧
    (deletePost db id a).2.posts pid = none ∧
    (∀ content postId parent u newId, castObjectId postId = some pid →
      createCommentAccepted content postId parent = true →
      (createComment (deletePost db id a).2 content postId parent u newId).1.status = 404 ∧
      (createComment (deletePost db id a).2 content postId parent u newId).2
        = (deletePost db id a).2) ∧
    (∀ idx s p l, castObjectId s = some pid →
      (listComments (deletePost db id a).2 idx s p l).1.status = 200 ∧
      (listComments (deletePost db id a).2 idx s p l).1 = (listComments db idx s p l).1) := by
  have h200 := deletePost_succeeds db id pid a post hc hp hau
  obtain ⟨pid1, post1, e1, -, -, hposts, -, hcomments⟩ := deletePost_effect db id a h200
  have hpid : pid1 = pid := Option.some.inj (e1.symm.trans hc)
  subst hpid
  have hgone : (deletePost db id a).2.posts pid1 = none := by
    rw [hposts]
    simp
  refine ⟨h200, hgone, ?_, ?_⟩
  · intro content postId parent u newId hcp hv
    have h := createComment_missing_referent (deletePost db id a).2 content postId parent u newId
      pid1 hv hcp (Or.inl hgone)
    exact ⟨h.1, h.2.2⟩
  · intro idx s p l hs
    refine ⟨?_, listComments_of_comments db _ idx s p l hcomments⟩
    simp [listComments, hs]

/-- Alice deletes `postOne` in `threadStore`: a new comment on it is refused
with 404, the listing still answers as before. -/
theorem access_after_post_delete_witness :
    castObjectId postOne.toString = some postOne ∧
    threadStore.posts postOne = some { emptyPost with commentsCount := 1 } ∧
    (deletePost threadStore postOne.toString alice).1.status = 200 ∧
    (createComment (deletePost threadStore postOne.toString alice).2 "hi" postOne.toString none
      bob commentTwo).1.status = 404 ∧
    (listComments (deletePost threadStore postOne.toString alice).2 [commentOne]
      postOne.toString none none).1
      = (listComments threadStore [commentOne] postOne.toString none none).1 := by
  have h := access_after_post_delete threadStore postOne.toString postOne alice
    { emptyPost with commentsCount := 1 } (by decide) (by decide) (by decide)
  exact ⟨by decide, by decide, h.1,
    (h.2.2.1 "hi" postOne.toString none bob commentTwo (by decide) (by decide)).1,
    (h.2.2.2 [commentOne] postOne.toString none none (by decide)).2⟩

/-! ## C24 -/

/-- Without faults the handler with faults is the handler. -/
theorem toggleFollowFaulty_none (db : Store) (s : String) (a : ObjectId) :
    toggleFollowFaulty (fun _ => false) db s a = toggleFollow db s a := by
  simp [toggleFollowFaulty, toggleFollow]

/-- C24 as stated fails: Alice follows Bob in `twoUsers`. When the update of
Bob's `followers` (call 4) rejects after Alice's `following` was written, the
answer is the same 500 `Server error` as when the first update (call 3) rejects
and nothing was written; only the stores differ. -/
theorem partial_failure_counterexample :
    (toggleFollowFaulty (failsAt 4) twoUsers bob.toString alice).1
      = (toggleFollowFaulty (failsAt 3) twoUsers bob.toString alice).1 ∧
    (toggleFollowFaulty (failsAt 4) twoUsers bob.toString alice).1
      = { status := 500, success := false, message := "Server error", data := none } ∧
    (toggleFollowFaulty (failsAt 4) twoUsers bob.toString alice).2.users alice
      = some { freshUser with following := [bob] } ∧
    (toggleFollowFaulty (failsAt 4) twoUsers bob.toString alice).2.users bob = some freshUser ∧
    (toggleFollowFaulty (failsAt 3) twoUsers bob.toString alice).2.users alice
      = some freshUser := by
  decide

/-- C24 (amended): a partial failure is not surfaced distinctly. For distinct
stored users (actor, target), if the two reads and the update of the actor's
`following` succeed and the update of the target's `followers` then rejects,
the request is answered 500 `Server error`, which is also the answer when the
first update rejects and nothing is written; the already-written first side is
left as-is (the actor's `following` has the target added or pulled, no
compensating rollback) and no other record and no counter is written. -/
theorem partial_failure_not_distinct (fails : Nat → Bool) (db : Store) (a b : ObjectId)
    (ua ub : User) (hne : a ≠ b) (ha : db.users a = some ua) (hb : db.users b = some ub)
    (h1 : fails 1 = false) (h2 : fails 2 = false) (h3 : fails 3 = false)
    (h4 : fails 4 = true) :
    (toggleFollowFaulty fails db b.toString a).1 = serverError ∧
    ((toggleFollowFaulty (failsAt 3) db b.toString a).1 = serverError ∧
      (toggleFollowFaulty (failsAt 3) db b.toString a).2 = db) ∧
    (toggleFollowFaulty fails db b.toString a).2.users a
      = some { ua with following := if b ∈ ua.following then pull ua.following b
                                    else addToSet ua.following b } ∧
    (∀ i, i ≠ a → (toggleFollowFaulty fails db b.toString a).2.users i = db.users i) := by
  have hs : b.toString ≠ a.toString := fun e => hne (ObjectId.toString_injective e).symm
  have hinc := includes_toString ua.following b
  have f1 : failsAt 3 1 = false := rfl
  have f2 : failsAt 3 2 = false := rfl
  have f3 : failsAt 3 3 = true := rfl
  by_cases hmem : b ∈ ua.following
  · have hi : includes ua.following b.toString = true := by simp [hinc, hmem]
    refine ⟨?_, ⟨?_, ?_⟩, ?_, ?_⟩
    · simp [toggleFollowFaulty, hs, castObjectId_toString, ha, hb, hi, h1, h2, h3, h4]
    · simp [toggleFollowFaulty, hs, castObjectId_toString, ha, hb, hi, f1, f2, f3]
    · simp [toggleFollowFaulty, hs, castObjectId_toString, ha, hb, hi, f1, f2, f3]
    · simp [toggleFollowFaulty, hs, castObjectId_toString, ha, hb, hi, h1, h2, h3, h4,
        User.findByIdAndUpdate, hmem]
    · intro i hia
      simp [toggleFollowFaulty, hs, castObjectId_toString, ha, hb, hi, h1, h2, h3, h4,
        User.findByIdAndUpdate, hia]
  · have hi : includes ua.following b.toString = false := by simp [hinc, hmem]
    refine ⟨?_, ⟨?_, ?_⟩, ?_, ?_⟩
    · simp [toggleFollowFaulty, hs, castObjectId_toString, ha, hb, hi, h1, h2, h3, h4]
    · simp [toggleFollowFaulty, hs, castObjectId_toString, ha, hb, hi, f1, f2, f3]
    · simp [toggleFollowFaulty, hs, castObjectId_toString, ha, hb, hi, f1, f2, f3]
    · simp [toggleFollowFaulty, hs, castObjectId_toString, ha, hb, hi, h1, h2, h3, h4,
        User.findByIdAndUpdate, hmem]
    · intro i hia
      simp [toggleFollowFaulty, hs, castObjectId_toString, ha, hb, hi, h1, h2, h3, h4,
        User.findByIdAndUpdate, hia]

/-- Alice follows Bob in `twoUsers` and the second update rejects. -/
theorem partial_failure_not_distinct_witness :
    alice ≠ bob ∧ twoUsers.users alice = some freshUser ∧ twoUsers.users bob = some freshUser ∧
    failsAt 4 1 = false ∧ failsAt 4 2 = false ∧ failsAt 4 3 = false ∧ failsAt 4 4 = true ∧
    (toggleFollowFaulty (failsAt 4) twoUsers bob.toString alice).1 = serverError ∧
    (toggleFollowFaulty (failsAt 3) twoUsers bob.toString alice).1 = serverError ∧
    (toggleFollowFaulty (failsAt 4) twoUsers bob.toString alice).2.users bob
      = twoUsers.users bob := by
  have h := partial_failure_not_distinct (failsAt 4) twoUsers alice bob freshUser freshUser
    (by decide) (by decide) (by decide) rfl rfl rfl rfl
  exact ⟨by decide, by decide, by decide, rfl, rfl, rfl, rfl, h.1, h.2.1.1,
    h.2.2.2 bob (by decide)⟩

end Blogger
